import Mathlib

/-!
# Verification of the `rwmap` template specializer (src/rwmap/main.go)

Shallow embedding of the Go AST fragments the specializer manipulates and of
the specializer itself.  Go's `*ast.File` / `ast.Decl` / `ast.Stmt` /
`ast.Expr` are embedded as Lean inductives carrying exactly the structure the
program inspects; position information (`token.Pos`), which the program only
threads through for pretty-printing, is not modeled.  The `interface{}`
placeholder type (`*ast.InterfaceType` with no methods; the template uses no
other interface type) is the nullary constructor `Expr.iface`.
-/

namespace Rwmap

/-- Go expressions (`ast.Expr`), restricted to the syntactic shapes occurring
in the template and in caller-supplied type expressions.  A `Field` of a Go
`ast.FieldList` is a pair of the name list and the type. -/
inductive Expr where
  | ident (name : String)
  | iface
  | mapType (key value : Expr)
  | arrayType (elt : Expr)
  | starExpr (x : Expr)
  | selector (x : Expr) (sel : String)
  | funcType (params : List (List String × Expr)) (results : Option (List (List String × Expr)))
  | structType (fields : List (List String × Expr))
  | call (fn : Expr) (args : List Expr)
  | compositeLit (ty : Option Expr) (elts : List Expr)
  | indexExpr (x idx : Expr)
  | lit (text : String)
  | binary (op : String) (lhs rhs : Expr)
  | unary (op : String) (x : Expr)
  deriving Repr

instance : Inhabited Expr := ⟨.iface⟩

/-- A field of a Go `ast.FieldList`: the declared names and the type. -/
abbrev Field := List String × Expr

/-- A Go `ast.FieldList` (parameter list, result list, struct field list). -/
abbrev FieldList := List Field

/-- Go statements (`ast.Stmt`) as they occur in the template bodies.
An `if` statement with an init statement is modeled as a `block` of the init
statement followed by the `if` (the traversals below treat both identically,
as `astutil.Apply` visits init statements and nested statements alike). -/
inductive Stmt where
  | exprStmt (e : Expr)
  | assign (lhs rhs : List Expr) (tok : String)
  | ret (results : List Expr)
  | ifStmt (cond : Expr) (thenBody elseBody : List Stmt)
  | forRange (keyName valName : Option String) (x : Expr) (body : List Stmt)
  | deferStmt (e : Expr)
  | incDec (x : Expr) (op : String)
  | breakStmt
  | block (body : List Stmt)
  deriving Repr

instance : Inhabited Stmt := ⟨.breakStmt⟩

/-- A Go `ast.Spec` inside a `GenDecl`: import, type, or value spec. -/
inductive Spec where
  | importSpec (path : String)
  | typeSpec (name : String) (ty : Expr)
  | valueSpec (names : List String) (ty : Option Expr) (values : List Expr)
  deriving Repr

/-- A Go top-level declaration (`ast.Decl`).  `badDecl` stands for any
declaration that is neither an `ast.FuncDecl` nor an `ast.GenDecl`
(the `default` branch of the walk in `Generator.Mutate`). -/
inductive Decl where
  | funcDecl (recvName : Option String) (recvType : Option Expr) (name : String)
      (params : FieldList) (results : Option FieldList) (body : List Stmt)
  | genDecl (specs : List Spec)
  | badDecl
  deriving Repr

instance : Inhabited Spec := ⟨.importSpec ""⟩

instance : Inhabited Decl := ⟨.badDecl⟩

/-- A Go `ast.File`: package name and declarations. -/
structure File where
  pkgName : String
  decls : List Decl
  deriving Repr

/-! ## `replaceIface` (main.go:599-607)

`astutil.Apply` replacing every `*ast.InterfaceType` node with the expression
parsed from the substituted type text.  The replacement is inserted as-is and
is not re-traversed (`astutil` does not descend into a node installed by
`Cursor.Replace`). -/

mutual

def replaceIfaceE (s : Expr) : Expr → Expr
  | .ident n => .ident n
  | .iface => s
  | .mapType a b => .mapType (replaceIfaceE s a) (replaceIfaceE s b)
  | .arrayType e => .arrayType (replaceIfaceE s e)
  | .starExpr e => .starExpr (replaceIfaceE s e)
  | .selector x f => .selector (replaceIfaceE s x) f
  | .funcType ps rs => .funcType (replaceIfaceFL s ps) (replaceIfaceOFL s rs)
  | .structType fs => .structType (replaceIfaceFL s fs)
  | .call f args => .call (replaceIfaceE s f) (replaceIfaceL s args)
  | .compositeLit t es => .compositeLit (replaceIfaceO s t) (replaceIfaceL s es)
  | .indexExpr x i => .indexExpr (replaceIfaceE s x) (replaceIfaceE s i)
  | .lit t => .lit t
  | .binary op a b => .binary op (replaceIfaceE s a) (replaceIfaceE s b)
  | .unary op x => .unary op (replaceIfaceE s x)

def replaceIfaceL (s : Expr) : List Expr → List Expr
  | [] => []
  | e :: es => replaceIfaceE s e :: replaceIfaceL s es

def replaceIfaceO (s : Expr) : Option Expr → Option Expr
  | none => none
  | some e => some (replaceIfaceE s e)

def replaceIfaceFL (s : Expr) : FieldList → FieldList
  | [] => []
  | (ns, t) :: fs => (ns, replaceIfaceE s t) :: replaceIfaceFL s fs

def replaceIfaceOFL (s : Expr) : Option FieldList → Option FieldList
  | none => none
  | some fl => some (replaceIfaceFL s fl)

end

/-! `replaceIface` lifted over statements: the global traversal on a function
body (used by the `Delete` handler, which substitutes the whole declaration). -/

mutual

def replaceIfaceS (s : Expr) : Stmt → Stmt
  | .exprStmt e => .exprStmt (replaceIfaceE s e)
  | .assign l r tok => .assign (replaceIfaceL s l) (replaceIfaceL s r) tok
  | .ret es => .ret (replaceIfaceL s es)
  | .ifStmt c tb eb => .ifStmt (replaceIfaceE s c) (replaceIfaceSL s tb) (replaceIfaceSL s eb)
  | .forRange kn vn x b => .forRange kn vn (replaceIfaceE s x) (replaceIfaceSL s b)
  | .deferStmt e => .deferStmt (replaceIfaceE s e)
  | .incDec x op => .incDec (replaceIfaceE s x) op
  | .breakStmt => .breakStmt
  | .block b => .block (replaceIfaceSL s b)

def replaceIfaceSL (s : Expr) : List Stmt → List Stmt
  | [] => []
  | st :: sts => replaceIfaceS s st :: replaceIfaceSL s sts

end

/-- Lift of `replaceIface` over a whole function declaration (`Delete` handler:
`g.replaceKey(f)` is applied to the entire `*ast.FuncDecl`). -/
def replaceIfaceDecl (s : Expr) : Decl → Decl
  | .funcDecl rn rt nm ps rs body =>
      .funcDecl rn (replaceIfaceO s rt) nm (replaceIfaceFL s ps)
        (replaceIfaceOFL s rs) (replaceIfaceSL s body)
  | .genDecl specs => .genDecl specs
  | .badDecl => .badDecl

/-! ## Canonical rendering (`format.Node` on type expressions)

`NewGenerator` renders the key and value sub-expressions of the caller's
`map[T1]T2` argument back to text with `format.Node` and stores the texts in
`g.key` / `g.value`; the handlers re-parse these texts at each substitution
site and `renameTuple`/`renameTupleList` compare them with `==`.  `print`
mirrors that canonical single-line rendering for the expression shapes
admitted here. -/

mutual

def print : Expr → String
  | .ident n => n
  | .iface => "interface\x7b\x7d"
  | .mapType k v => "map[" ++ print k ++ "]" ++ print v
  | .arrayType e => "[]" ++ print e
  | .starExpr e => "*" ++ print e
  | .selector x f => print x ++ "." ++ f
  | .funcType ps rs =>
      "func(" ++ printFL ps ++ ")" ++
        (match rs with
         | none => ""
         | some fl => " (" ++ printFL fl ++ ")")
  | .structType fs => "struct \x7b " ++ printFL fs ++ " \x7d"
  | .call f args => print f ++ "(" ++ printL args ++ ")"
  | .compositeLit t es =>
      (match t with | none => "" | some ty => print ty) ++
        "\x7b" ++ printL es ++ "\x7d"
  | .indexExpr x i => print x ++ "[" ++ print i ++ "]"
  | .lit t => t
  | .binary op a b => print a ++ " " ++ op ++ " " ++ print b
  | .unary op x => op ++ print x

def printL : List Expr → String
  | [] => ""
  | [e] => print e
  | e :: es => print e ++ ", " ++ printL es

def printField : Field → String
  | (ns, t) => String.intercalate ", " ns ++
      (if ns.isEmpty then "" else " ") ++ print t

def printFL : FieldList → String
  | [] => ""
  | [f] => printField f
  | f :: fs => printField f ++ ", " ++ printFL fs

end

/-! ## `renameTuple` (main.go:532-544) and `renameTupleList` (main.go:546-560)

Both act on a `*ast.FieldList` in place.  If the rendered key text equals
the rendered value text, only `List[0]` is substituted with the key type.
Otherwise a new field carrying `List[0].Names[1]` and (a copy of)
`List[0].Type` is appended at the end of the list, `List[0].Names` is
truncated to its first name, `List[0]` is substituted with the key type and
`List[1]` with the value type.  (`List[1]` is the appended field exactly when
the list had a single field, which is the case for every call site in the
template.)  Accesses `List[0]`, `Names[1]` and the `(*ast.ArrayType)` type
assertion panic in Go when the shape does not match; those panics are
modeled as `none`. -/

def renameTuple (k v : Expr) : FieldList → Option FieldList
  | [] => none
  | (ns, t) :: rest =>
      if print k == print v then
        some ((ns, replaceIfaceE k t) :: rest)
      else
        match ns with
        | n1 :: n2 :: _ =>
            match rest with
            | [] => some [([n1], replaceIfaceE k t), ([n2], replaceIfaceE v t)]
            | (ns2, t2) :: rest2 =>
                some (([n1], replaceIfaceE k t) ::
                  (ns2, replaceIfaceE v t2) :: rest2 ++ [([n2], t)])
        | _ => none

def renameTupleList (k v : Expr) : FieldList → Option FieldList
  | [] => none
  | (ns, t) :: rest =>
      if print k == print v then
        some ((ns, replaceIfaceE k t) :: rest)
      else
        match t with
        | .arrayType elt =>
            match ns with
            | n1 :: n2 :: _ =>
                match rest with
                | [] => some [([n1], replaceIfaceE k (.arrayType elt)),
                              ([n2], replaceIfaceE v (.arrayType elt))]
                | (ns2, t2) :: rest2 =>
                    some (([n1], replaceIfaceE k (.arrayType elt)) ::
                      (ns2, replaceIfaceE v t2) :: rest2 ++ [([n2], .arrayType elt)])
            | _ => none
        | _ => none

/-! ## `renameMapType` (main.go:562-573)

Replaces every `*ast.MapType` node whose key and value are both
`*ast.InterfaceType` with the freshly parsed `map[key]value`.  A map type
with at least one concrete half is left in place and its children are
traversed instead; the inserted replacement is not re-traversed. -/

/-- Is this node the `interface\x7b\x7d` placeholder (`*ast.InterfaceType`)? -/
def isIface : Expr → Bool
  | .iface => true
  | _ => false

mutual

def renameMapTypeE (k v : Expr) : Expr → Expr
  | .ident n => .ident n
  | .iface => .iface
  | .mapType a b =>
      if isIface a && isIface b then .mapType k v
      else .mapType (renameMapTypeE k v a) (renameMapTypeE k v b)
  | .arrayType e => .arrayType (renameMapTypeE k v e)
  | .starExpr e => .starExpr (renameMapTypeE k v e)
  | .selector x f => .selector (renameMapTypeE k v x) f
  | .funcType ps rs => .funcType (renameMapTypeFL k v ps) (renameMapTypeOFL k v rs)
  | .structType fs => .structType (renameMapTypeFL k v fs)
  | .call f args => .call (renameMapTypeE k v f) (renameMapTypeL k v args)
  | .compositeLit t es => .compositeLit (renameMapTypeO k v t) (renameMapTypeL k v es)
  | .indexExpr x i => .indexExpr (renameMapTypeE k v x) (renameMapTypeE k v i)
  | .lit t => .lit t
  | .binary op a b => .binary op (renameMapTypeE k v a) (renameMapTypeE k v b)
  | .unary op x => .unary op (renameMapTypeE k v x)

def renameMapTypeL (k v : Expr) : List Expr → List Expr
  | [] => []
  | e :: es => renameMapTypeE k v e :: renameMapTypeL k v es

def renameMapTypeO (k v : Expr) : Option Expr → Option Expr
  | none => none
  | some e => some (renameMapTypeE k v e)

def renameMapTypeFL (k v : Expr) : FieldList → FieldList
  | [] => []
  | (ns, t) :: fs => (ns, renameMapTypeE k v t) :: renameMapTypeFL k v fs

def renameMapTypeOFL (k v : Expr) : Option FieldList → Option FieldList
  | none => none
  | some fl => some (renameMapTypeFL k v fl)

end

mutual

def renameMapTypeS (k v : Expr) : Stmt → Stmt
  | .exprStmt e => .exprStmt (renameMapTypeE k v e)
  | .assign l r tok => .assign (renameMapTypeL k v l) (renameMapTypeL k v r) tok
  | .ret es => .ret (renameMapTypeL k v es)
  | .ifStmt c tb eb => .ifStmt (renameMapTypeE k v c) (renameMapTypeSL k v tb) (renameMapTypeSL k v eb)
  | .forRange kn vn x b => .forRange kn vn (renameMapTypeE k v x) (renameMapTypeSL k v b)
  | .deferStmt e => .deferStmt (renameMapTypeE k v e)
  | .incDec x op => .incDec (renameMapTypeE k v x) op
  | .breakStmt => .breakStmt
  | .block b => .block (renameMapTypeSL k v b)

def renameMapTypeSL (k v : Expr) : List Stmt → List Stmt
  | [] => []
  | st :: sts => renameMapTypeS k v st :: renameMapTypeSL k v sts

end

/-! ## `renameMapKeysValues` (main.go:575-597)

Visits every `*ast.AssignStmt` whose `Rhs[0]` is a call of the identifier
`make` and whose `Lhs[0]` is a plain identifier; substitutes the call's first
argument with the key type when the identifier is named `keys`, and with the
value type for every other name ("values" is the intended one, but the code's
`else` branch matches any other name too).  `make` calls in parsed Go code
always carry at least one argument, so the empty-argument case (a Go index
panic) is left unchanged here. -/

def renameMapKeysValuesAssign (k v : Expr) (lhs rhs : List Expr) (tok : String) : Stmt :=
  match rhs with
  | .call (.ident "make") (a1 :: args) :: rrest =>
      match lhs with
      | .ident nm :: lrest =>
          .assign (.ident nm :: lrest)
            (.call (.ident "make")
              ((if nm == "keys" then replaceIfaceE k a1 else replaceIfaceE v a1) :: args)
              :: rrest) tok
      | _ => .assign lhs rhs tok
  | _ => .assign lhs rhs tok

mutual

def renameMapKeysValuesS (k v : Expr) : Stmt → Stmt
  | .exprStmt e => .exprStmt e
  | .assign l r tok => renameMapKeysValuesAssign k v l r tok
  | .ret es => .ret es
  | .ifStmt c tb eb => .ifStmt c (renameMapKeysValuesSL k v tb) (renameMapKeysValuesSL k v eb)
  | .forRange kn vn x b => .forRange kn vn x (renameMapKeysValuesSL k v b)
  | .deferStmt e => .deferStmt e
  | .incDec x op => .incDec x op
  | .breakStmt => .breakStmt
  | .block b => .block (renameMapKeysValuesSL k v b)

def renameMapKeysValuesSL (k v : Expr) : List Stmt → List Stmt
  | [] => []
  | st :: sts => renameMapKeysValuesS k v st :: renameMapKeysValuesSL k v sts

end

/-! ## `renameNil` (main.go:626-635)

Renames every identifier whose name is `"nil"` (the rendering of the
universal absence sentinel, `new(types.Nil).String()`) and whose direct
parent node is a `*ast.ReturnStmt` — i.e. exactly the bare `nil` result
operands of return statements — to the given name. -/

/-- Rewrite a single return operand: a bare `nil` identifier becomes `nm`. -/
def nilTo (nm : String) : Expr → Expr
  | .ident n => if n = "nil" then .ident nm else .ident n
  | e => e

mutual

def renameNilS (nm : String) : Stmt → Stmt
  | .exprStmt e => .exprStmt e
  | .assign l r tok => .assign l r tok
  | .ret es => .ret (es.map (nilTo nm))
  | .ifStmt c tb eb => .ifStmt c (renameNilSL nm tb) (renameNilSL nm eb)
  | .forRange kn vn x b => .forRange kn vn x (renameNilSL nm b)
  | .deferStmt e => .deferStmt e
  | .incDec x op => .incDec x op
  | .breakStmt => .breakStmt
  | .block b => .block (renameNilSL nm b)

def renameNilSL (nm : String) : List Stmt → List Stmt
  | [] => []
  | st :: sts => renameNilS nm st :: renameNilSL nm sts

end

/-! ## `rename` (main.go:609-624)

One `astutil.Apply` pass over the whole file applying a fixed
old-name-to-new-name table to every identifier (`*ast.Ident` case) and to
every function declaration name (`*ast.FuncDecl` case).  Since the
`FuncDecl` case fires on the declaration node first and the traversal then
descends into its `Name` identifier, a function declaration's name receives
the table twice.  The `n.Obj.Name` bookkeeping update has no counterpart
here because identifiers are embedded as bare names.  The generic pass
`mapNames` is parameterized by the per-name function; the concrete table is
`tableApply` below. -/

mutual

def mapNamesE (f : String → String) : Expr → Expr
  | .ident n => .ident (f n)
  | .iface => .iface
  | .mapType a b => .mapType (mapNamesE f a) (mapNamesE f b)
  | .arrayType e => .arrayType (mapNamesE f e)
  | .starExpr e => .starExpr (mapNamesE f e)
  | .selector x s => .selector (mapNamesE f x) (f s)
  | .funcType ps rs => .funcType (mapNamesFL f ps) (mapNamesOFL f rs)
  | .structType fs => .structType (mapNamesFL f fs)
  | .call fn args => .call (mapNamesE f fn) (mapNamesL f args)
  | .compositeLit t es => .compositeLit (mapNamesO f t) (mapNamesL f es)
  | .indexExpr x i => .indexExpr (mapNamesE f x) (mapNamesE f i)
  | .lit t => .lit t
  | .binary op a b => .binary op (mapNamesE f a) (mapNamesE f b)
  | .unary op x => .unary op (mapNamesE f x)

def mapNamesL (f : String → String) : List Expr → List Expr
  | [] => []
  | e :: es => mapNamesE f e :: mapNamesL f es

def mapNamesO (f : String → String) : Option Expr → Option Expr
  | none => none
  | some e => some (mapNamesE f e)

def mapNamesFL (f : String → String) : FieldList → FieldList
  | [] => []
  | (ns, t) :: fs => (ns.map f, mapNamesE f t) :: mapNamesFL f fs

def mapNamesOFL (f : String → String) : Option FieldList → Option FieldList
  | none => none
  | some fl => some (mapNamesFL f fl)

end

mutual

def mapNamesS (f : String → String) : Stmt → Stmt
  | .exprStmt e => .exprStmt (mapNamesE f e)
  | .assign l r tok => .assign (mapNamesL f l) (mapNamesL f r) tok
  | .ret es => .ret (mapNamesL f es)
  | .ifStmt c tb eb => .ifStmt (mapNamesE f c) (mapNamesSL f tb) (mapNamesSL f eb)
  | .forRange kn vn x b => .forRange (kn.map f) (vn.map f) (mapNamesE f x) (mapNamesSL f b)
  | .deferStmt e => .deferStmt (mapNamesE f e)
  | .incDec x op => .incDec (mapNamesE f x) op
  | .breakStmt => .breakStmt
  | .block b => .block (mapNamesSL f b)

def mapNamesSL (f : String → String) : List Stmt → List Stmt
  | [] => []
  | st :: sts => mapNamesS f st :: mapNamesSL f sts

end

def mapNamesSpec (f : String → String) : Spec → Spec
  | .importSpec p => .importSpec p
  | .typeSpec nm ty => .typeSpec (f nm) (mapNamesE f ty)
  | .valueSpec ns ty vs => .valueSpec (ns.map f) (mapNamesO f ty) (mapNamesL f vs)

def mapNamesDecl (f : String → String) : Decl → Decl
  | .funcDecl rn rt nm ps rs body =>
      .funcDecl (rn.map f) (mapNamesO f rt) (f (f nm))
        (mapNamesFL f ps) (mapNamesOFL f rs) (mapNamesSL f body)
  | .genDecl specs => .genDecl (specs.map (mapNamesSpec f))
  | .badDecl => .badDecl

def mapNamesFile (f : String → String) (fl : File) : File :=
  { pkgName := f fl.pkgName, decls := fl.decls.map (mapNamesDecl f) }

/-- Go `strings.Title` as used on the caller-supplied struct name: the name is a
single identifier-like word, for which `strings.Title` upper-cases the first
character. -/
def goTitle (s : String) : String :=
  match s with
  | ⟨[]⟩ => ⟨[]⟩
  | ⟨c :: cs⟩ => ⟨c.toUpper :: cs⟩

/-- The rename table built in `Generator.Mutate` (main.go:418-424), applied
to one name: `Map` goes to the output name, and the four private helper
names get the title-cased output name as a suffix. -/
def tableApply (nm : String) (x : String) : String :=
  if x = "Map" then nm
  else if x = "entry" then "entry" ++ goTitle nm
  else if x = "readOnly" then "readOnly" ++ goTitle nm
  else if x = "expunged" then "expunged" ++ goTitle nm
  else if x = "newEntry" then "newEntry" ++ goTitle nm
  else x

/-! ## Declaration Registry (`Generator.Funcs`/`Types`/`Values`,
main.go:442-524)

Handlers receive the matched declaration (or spec) and return its mutated
form; `none` models a Go runtime panic (out-of-range index or failed type
assertion) inside a handler, which is not converted to a `genError`. -/

abbrev FnHandler := Decl → Option Decl
abbrev SpecHandler := Spec → Option Spec

/-- Registry `Generator.Types`: the single handler for `type Map`, applying
`renameMapType` to the first field of the struct (`Fields.List[0]`). -/
def typesRegistry (k v : Expr) : List (String × SpecHandler) :=
  [("Map", fun s =>
    match s with
    | .typeSpec nm (.structType ((ns, t) :: rest)) =>
        some (.typeSpec nm (.structType ((ns, renameMapTypeE k v t) :: rest)))
    | _ => none)]

/-- Registry `Generator.Values`: empty. -/
def valuesRegistry : List (String × SpecHandler) := []

/-- Registry `Generator.Funcs`: one handler per expected function declaration. -/
def funcsRegistry (k v : Expr) : List (String × FnHandler) :=
  [ ("Init", fun d =>
      match d with
      | .funcDecl rn rt nm ps rs body =>
          some (.funcDecl rn rt nm ps rs (renameMapTypeSL k v body))
      | _ => none),
    ("checkData", fun d =>
      match d with
      | .funcDecl rn rt nm ps rs body =>
          some (.funcDecl rn rt nm ps rs (renameMapTypeSL k v body))
      | _ => none),
    ("Change", fun d =>
      match d with
      | .funcDecl rn rt nm ps rs body =>
          some (.funcDecl rn rt nm (renameMapTypeFL k v ps) rs body)
      | _ => none),
    ("Load", fun d =>
      match d with
      | .funcDecl rn rt nm ps (some ((n0 :: ns, t) :: rest)) body =>
          some (.funcDecl rn rt nm (replaceIfaceFL k ps)
            (some (replaceIfaceFL v ((n0 :: ns, t) :: rest)))
            (renameNilSL n0 body))
      | _ => none),
    ("Store", fun d =>
      match d with
      | .funcDecl rn rt nm ps rs body => do
          let ps' ← renameTuple k v ps
          some (.funcDecl rn rt nm ps' rs body)
      | _ => none),
    ("AddStore", fun d =>
      match d with
      | .funcDecl rn rt nm ps rs body => do
          let ps' ← renameTuple k v ps
          some (.funcDecl rn rt nm ps' (replaceIfaceOFL v rs) body)
      | _ => none),
    ("AddStores", fun d =>
      match d with
      | .funcDecl rn rt nm ps rs body => do
          let ps' ← renameTupleList k v ps
          some (.funcDecl rn rt nm ps' rs body)
      | _ => none),
    ("Stores", fun d =>
      match d with
      | .funcDecl rn rt nm ps rs body => do
          let ps' ← renameTupleList k v ps
          some (.funcDecl rn rt nm ps' rs body)
      | _ => none),
    ("LoadOrStore", fun d =>
      match d with
      | .funcDecl rn rt nm ps rs body => do
          let ps' ← renameTuple k v ps
          some (.funcDecl rn rt nm ps' (replaceIfaceOFL v rs) body)
      | _ => none),
    ("LoadAndDelete", fun d =>
      match d with
      | .funcDecl rn rt nm ps (some ((n0 :: ns, t) :: rest)) body =>
          some (.funcDecl rn rt nm (replaceIfaceFL k ps)
            (some (replaceIfaceFL v ((n0 :: ns, t) :: rest)))
            (renameNilSL n0 body))
      | _ => none),
    ("Range", fun d =>
      match d with
      | .funcDecl rn rt nm ((ns, .funcType ips irs) :: rest) rs body => do
          let ips' ← renameTuple k v ips
          some (.funcDecl rn rt nm ((ns, .funcType ips' irs) :: rest) rs body)
      | _ => none),
    ("Items", fun d =>
      match d with
      | .funcDecl rn rt nm ps (some fl) body => do
          let fl' ← renameTupleList k v fl
          some (.funcDecl rn rt nm ps (some fl') (renameMapKeysValuesSL k v body))
      | _ => none),
    ("ItemMap", fun d =>
      match d with
      | .funcDecl rn rt nm ps rs body =>
          some (.funcDecl rn rt nm ps (renameMapTypeOFL k v rs) (renameMapTypeSL k v body))
      | _ => none),
    ("StoreMap", fun d =>
      match d with
      | .funcDecl rn rt nm ps rs body =>
          some (.funcDecl rn rt nm (renameMapTypeFL k v ps) rs (renameMapTypeSL k v body))
      | _ => none),
    ("Delete", fun d => some (replaceIfaceDecl k d)),
    ("DeleteAll", fun d =>
      match d with
      | .funcDecl rn rt nm ps rs body =>
          some (.funcDecl rn rt nm ps rs (renameMapKeysValuesSL k v body))
      | _ => none),
    ("FromDB", fun d => some d),
    ("ToDB", fun d => some d),
    ("MarshalJSON", fun d => some d),
    ("UnmarshalJSON", fun d =>
      match d with
      | .funcDecl rn rt nm ps rs body =>
          some (.funcDecl rn rt nm ps rs (renameMapTypeSL k v body))
      | _ => none),
    ("String", fun d => some d) ]

structure Registries where
  funcs : List (String × FnHandler)
  types : List (String × SpecHandler)
  values : List (String × SpecHandler)

def registries (k v : Expr) : Registries :=
  { funcs := funcsRegistry k v, types := typesRegistry k v, values := valuesRegistry }

/-! ## The Specializer walk (`Generator.Mutate`, main.go:376-427) -/

/-- How one generation run fails: `drift` is a `genError` raised through
`expect`/`check` (reported to the user), `crash` is any other runtime panic
(not recovered by `catch`).  Either way the run produces no output. -/
inductive MutError where
  | drift (msg : String)
  | crash
  deriving Repr, DecidableEq

/-- Go `delete(m, name)` on the registry, modeled on the association list. -/
def eraseKey (nm : String) : List (String × α) → List (String × α)
  | [] => []
  | (key, val) :: rest =>
      if key = nm then eraseKey nm rest else (key, val) :: eraseKey nm rest

/-- One iteration of the declaration walk: dispatch on the declaration kind,
look up the handler, invoke it, and consume the registry entry.  A `GenDecl`
is inspected only at `Specs[0]`; a first spec that is neither a type spec
nor a value spec falls through both `case` arms silently. -/
def step (r : Registries) (d : Decl) : Except MutError (Registries × Decl) :=
  match d with
  | .funcDecl rn rt name ps rs body =>
      match r.funcs.lookup name with
      | none => .error (.drift ("unrecognized function: " ++ name))
      | some h =>
          match h (.funcDecl rn rt name ps rs body) with
          | none => .error .crash
          | some d' => .ok ({ r with funcs := eraseKey name r.funcs }, d')
  | .genDecl specs =>
      match specs with
      | [] => .error .crash
      | s0 :: rest =>
          match s0 with
          | .typeSpec nm ty =>
              match r.types.lookup nm with
              | none => .error (.drift ("unrecognized type: " ++ nm))
              | some h =>
                  match h (.typeSpec nm ty) with
                  | none => .error .crash
                  | some s0' =>
                      .ok ({ r with types := eraseKey nm r.types }, .genDecl (s0' :: rest))
          | .valueSpec names ty vals =>
              match names with
              | [] => .error .crash
              | n0 :: nrest =>
                  match r.values.lookup n0 with
                  | none => .error (.drift ("unrecognized value: " ++ n0))
                  | some h =>
                      match h (.valueSpec (n0 :: nrest) ty vals) with
                      | none => .error .crash
                      | some s0' =>
                          if nrest.isEmpty then
                            .ok ({ r with values := eraseKey n0 r.values },
                              .genDecl (s0' :: rest))
                          else .error (.drift "mismatch values length")
          | .importSpec p => .ok (r, .genDecl (.importSpec p :: rest))
  | .badDecl => .error (.drift "unrecognized decl")

/-- The walk over all top-level declarations, in source order. -/
def walkAll (r : Registries) : List Decl → Except MutError (Registries × List Decl)
  | [] => .ok (r, [])
  | d :: ds =>
      match step r d with
      | .error e => .error e
      | .ok (r1, d') =>
          match walkAll r1 ds with
          | .error e => .error e
          | .ok (r2, ds') => .ok (r2, d' :: ds')

/-- Core of `Generator.Mutate` after parsing, on a given declaration list: walk,
check that every registry entry was consumed, then apply the rename table
over the whole file. -/
def mutateDecls (k v : Expr) (nm pkg : String) (decls : List Decl) :
    Except MutError File :=
  match walkAll (registries k v) decls with
  | .error e => .error e
  | .ok (r', decls') =>
      if r'.funcs.length = 0 then
        if r'.types.length = 0 then
          if r'.values.length = 0 then
            .ok (mapNamesFile (tableApply nm) { pkgName := pkg, decls := decls' })
          else .error (.drift "value was deleted")
        else .error (.drift "type was deleted")
      else .error (.drift "function was deleted")

/-! ## The template (`templateCode`, main.go:38-276, plus the extension
variants `templateCodeExTrue` main.go:278-302 and `templateCodeExFalse`
main.go:304-318), transcribed declaration by declaration.

Go `if` statements with an init statement (`LoadOrStore`) are modeled as a
block of the init assignment followed by the `if`. -/

def mData : Expr := .selector (.ident "m") "data"

def mapII : Expr := .mapType .iface .iface

def lockS : Stmt := .exprStmt (.call (.selector (.selector (.ident "m") "mu") "Lock") [])

def unlockS : Stmt := .exprStmt (.call (.selector (.selector (.ident "m") "mu") "Unlock") [])

def rlockS : Stmt := .exprStmt (.call (.selector (.selector (.ident "m") "mu") "RLock") [])

def runlockS : Stmt := .exprStmt (.call (.selector (.selector (.ident "m") "mu") "RUnlock") [])

def deferUnlockS : Stmt := .deferStmt (.call (.selector (.selector (.ident "m") "mu") "Unlock") [])

def deferRUnlockS : Stmt := .deferStmt (.call (.selector (.selector (.ident "m") "mu") "RUnlock") [])

def checkDataS : Stmt := .exprStmt (.call (.selector (.ident "m") "checkData") [])

/-- The import declaration: one `GenDecl` with three import specs. -/
def importsDecl : Decl :=
  .genDecl [.importSpec "errors", .importSpec "github.com/json-iterator/go",
            .importSpec "sync"]

/-- The declaration `type Map struct \x7b data map[interface\x7b\x7d]interface\x7b\x7d; mu sync.RWMutex \x7d`. -/
def mapTypeDecl : Decl :=
  .genDecl [.typeSpec "Map" (.structType
    [(["data"], mapII), (["mu"], .selector (.ident "sync") "RWMutex")])]

def checkDataDecl : Decl :=
  .funcDecl (some "m") (some (.starExpr (.ident "Map"))) "checkData" [] none
    [.ifStmt (.binary "==" mData (.ident "nil"))
      [.assign [mData] [.compositeLit (some mapII) []] "="] []]

def initDecl : Decl :=
  .funcDecl (some "m") (some (.starExpr (.ident "Map"))) "Init" []
    (some [([], .starExpr (.ident "Map"))])
    [lockS, .assign [mData] [.compositeLit (some mapII) []] "=", unlockS,
     .ret [.ident "m"]]

def changeDecl : Decl :=
  .funcDecl (some "m") (some (.starExpr (.ident "Map"))) "Change"
    [(["newMap"], mapII)] none
    [lockS, .assign [mData] [.ident "newMap"] "=", unlockS]

def loadDecl : Decl :=
  .funcDecl (some "m") (some (.starExpr (.ident "Map"))) "Load"
    [(["key"], .iface)]
    (some [(["value"], .iface), (["ok"], .ident "bool")])
    [rlockS, deferRUnlockS,
     .assign [.ident "value", .ident "ok"] [.indexExpr mData (.ident "key")] "=",
     .ret []]

def storeDecl : Decl :=
  .funcDecl (some "m") (some (.starExpr (.ident "Map"))) "Store"
    [(["key", "value"], .iface)] none
    [lockS, deferUnlockS, checkDataS,
     .assign [.indexExpr mData (.ident "key")] [.ident "value"] "=",
     .ret []]

def storesDecl : Decl :=
  .funcDecl (some "m") (some (.starExpr (.ident "Map"))) "Stores"
    [(["keys", "values"], .arrayType .iface)] none
    [lockS, deferUnlockS, checkDataS,
     .forRange (some "idx") (some "key") (.ident "keys")
       [.assign [.indexExpr mData (.ident "key")]
          [.indexExpr (.ident "values") (.ident "idx")] "="],
     .ret []]

def storeMapDecl : Decl :=
  .funcDecl (some "m") (some (.starExpr (.ident "Map"))) "StoreMap"
    [(["tmp"], mapII)] none
    [lockS, deferUnlockS, checkDataS,
     .forRange (some "key") (some "value") (.ident "tmp")
       [.assign [.indexExpr mData (.ident "key")] [.ident "value"] "="],
     .ret []]

def loadOrStoreDecl : Decl :=
  .funcDecl (some "m") (some (.starExpr (.ident "Map"))) "LoadOrStore"
    [(["key", "value"], .iface)]
    (some [(["actual"], .iface), (["loaded"], .ident "bool")])
    [rlockS,
     .ifStmt (.binary "==" mData (.ident "nil"))
       [runlockS, lockS, checkDataS, unlockS, rlockS] [],
     .assign [.ident "actual", .ident "loaded"] [.indexExpr mData (.ident "key")] "=",
     runlockS,
     .ifStmt (.unary "!" (.ident "loaded"))
       [lockS,
        .block
          [.assign [.ident "actual", .ident "loaded"]
             [.indexExpr mData (.ident "key")] "=",
           .ifStmt (.unary "!" (.ident "loaded"))
             [.assign [.indexExpr mData (.ident "key")] [.ident "value"] "=",
              .assign [.ident "actual"] [.ident "value"] "="] []],
        unlockS] [],
     .ret []]

def loadAndDeleteDecl : Decl :=
  .funcDecl (some "m") (some (.starExpr (.ident "Map"))) "LoadAndDelete"
    [(["key"], .iface)]
    (some [(["value"], .iface), (["loaded"], .ident "bool")])
    [lockS, deferUnlockS, checkDataS,
     .assign [.ident "value", .ident "loaded"] [.indexExpr mData (.ident "key")] "=",
     .ifStmt (.ident "loaded")
       [.exprStmt (.call (.ident "delete") [mData, .ident "key"])] [],
     .ret []]

def deleteDecl : Decl :=
  .funcDecl (some "m") (some (.starExpr (.ident "Map"))) "Delete"
    [(["key"], .iface)] none
    [.exprStmt (.call (.selector (.ident "m") "LoadAndDelete") [.ident "key"])]

def deleteAllDecl : Decl :=
  .funcDecl (some "m") (some (.starExpr (.ident "Map"))) "DeleteAll" [] none
    [lockS, deferUnlockS, checkDataS,
     .assign [.ident "length"] [.call (.ident "len") [mData]] ":=",
     .assign [.ident "keys"]
       [.call (.ident "make") [.arrayType .iface, .ident "length"]] ":=",
     .assign [.ident "idx"] [.lit "0"] ":=",
     .forRange (some "key") (some "_") mData
       [.assign [.indexExpr (.ident "keys") (.ident "idx")] [.ident "key"] "=",
        .incDec (.ident "idx") "++"],
     .forRange (some "_") (some "key") (.ident "keys")
       [.exprStmt (.call (.ident "delete") [mData, .ident "key"])]]

def rangeDecl : Decl :=
  .funcDecl (some "m") (some (.starExpr (.ident "Map"))) "Range"
    [(["f"], .funcType [(["key", "value"], .iface)] (some [([], .ident "bool")]))]
    none
    [rlockS, deferRUnlockS,
     .forRange (some "key") (some "value") mData
       [.ifStmt (.unary "!" (.call (.ident "f") [.ident "key", .ident "value"]))
          [.breakStmt] []],
     .ret []]

def itemsDecl : Decl :=
  .funcDecl (some "m") (some (.starExpr (.ident "Map"))) "Items" []
    (some [(["keys", "values"], .arrayType .iface)])
    [rlockS, deferRUnlockS,
     .assign [.ident "length"] [.call (.ident "len") [mData]] ":=",
     .assign [.ident "keys"]
       [.call (.ident "make") [.arrayType .iface, .ident "length"]] "=",
     .assign [.ident "values"]
       [.call (.ident "make") [.arrayType .iface, .ident "length"]] "=",
     .assign [.ident "idx"] [.lit "0"] ":=",
     .forRange (some "key") (some "value") mData
       [.assign [.indexExpr (.ident "keys") (.ident "idx")] [.ident "key"] "=",
        .assign [.indexExpr (.ident "values") (.ident "idx")] [.ident "value"] "=",
        .incDec (.ident "idx") "++"],
     .ret []]

def itemMapDecl : Decl :=
  .funcDecl (some "m") (some (.starExpr (.ident "Map"))) "ItemMap" []
    (some [(["tmp"], mapII)])
    [rlockS, deferRUnlockS,
     .assign [.ident "length"] [.call (.ident "len") [mData]] ":=",
     .assign [.ident "tmp"] [.call (.ident "make") [mapII, .ident "length"]] "=",
     .forRange (some "key") (some "value") mData
       [.assign [.indexExpr (.ident "tmp") (.ident "key")] [.ident "value"] "="],
     .ret []]

def fromDBDecl : Decl :=
  .funcDecl (some "m") (some (.starExpr (.ident "Map"))) "FromDB"
    [(["data"], .arrayType (.ident "byte"))]
    (some [(["err"], .ident "error")])
    [.ifStmt (.binary "==" (.call (.ident "len") [.ident "data"]) (.lit "0"))
       [.exprStmt (.call (.selector (.ident "m") "Init") []), .ret [.ident "nil"]] [],
     .assign [.ident "err"]
       [.call (.selector (.ident "m") "UnmarshalJSON") [.ident "data"]] "=",
     .ret []]

def toDBDecl : Decl :=
  .funcDecl (some "m") (some (.starExpr (.ident "Map"))) "ToDB" []
    (some [(["data"], .arrayType (.ident "byte")), (["err"], .ident "error")])
    [.assign [.ident "data", .ident "err"]
       [.call (.selector (.ident "m") "MarshalJSON") []] "=",
     .ret []]

def marshalJSONDecl : Decl :=
  .funcDecl (some "m") (some (.starExpr (.ident "Map"))) "MarshalJSON" []
    (some [([], .arrayType (.ident "byte")), ([], .ident "error")])
    [.ifStmt (.binary "==" (.ident "m") (.ident "nil"))
       [.ret [.call (.arrayType (.ident "byte")) [.lit "\"null\""], .ident "nil"]] [],
     rlockS, deferRUnlockS,
     .assign [.ident "ret", .ident "err"]
       [.call (.selector (.selector (.ident "jsoniter")
          "ConfigCompatibleWithStandardLibrary") "Marshal") [mData]] ":=",
     .ifStmt (.binary "!=" (.ident "err") (.ident "nil"))
       [.ret [.ident "nil", .ident "err"]] [],
     .ret [.ident "ret", .ident "nil"]]

def unmarshalJSONDecl : Decl :=
  .funcDecl (some "m") (some (.starExpr (.ident "Map"))) "UnmarshalJSON"
    [(["b"], .arrayType (.ident "byte"))]
    (some [([], .ident "error")])
    [.ifStmt (.binary "==" (.ident "m") (.ident "nil"))
       [.ret [.call (.selector (.ident "errors") "New")
          [.lit "\" Unmarshal(non-pointer MapInt32Int8)\""]]] [],
     .assign [.ident "tmp"] [.compositeLit (some mapII) []] ":=",
     .assign [.ident "err"]
       [.call (.selector (.selector (.ident "jsoniter")
          "ConfigCompatibleWithStandardLibrary") "Unmarshal")
          [.ident "b", .unary "&" (.ident "tmp")]] ":=",
     .ifStmt (.binary "!=" (.ident "err") (.ident "nil")) [.ret [.ident "err"]] [],
     .ifStmt (.binary "==" (.ident "tmp") (.ident "nil"))
       [.assign [.ident "tmp"] [.compositeLit (some mapII) []] "="] [],
     .exprStmt (.call (.selector (.ident "m") "Change") [.ident "tmp"]),
     .ret [.ident "nil"]]

def stringDecl : Decl :=
  .funcDecl (some "m") (some (.starExpr (.ident "Map"))) "String" []
    (some [([], .ident "string")])
    [.ifStmt (.binary "==" (.ident "m") (.ident "nil"))
       [.ret [.lit "\"\x7b\x7d\""]] [],
     .assign [.ident "data", .ident "err"]
       [.call (.selector (.ident "m") "MarshalJSON") []] ":=",
     .ifStmt (.binary "!=" (.ident "err") (.ident "nil"))
       [.ret [.lit "\"\x7b\x7d\""]] [],
     .ret [.call (.ident "string") [.ident "data"]]]

/-- Declaration `AddStore` from `templateCodeExTrue`: genuine numeric accumulation. -/
def addStoreTrueDecl : Decl :=
  .funcDecl (some "m") (some (.starExpr (.ident "Map"))) "AddStore"
    [(["key", "value"], .iface)]
    (some [(["ret"], .iface)])
    [lockS, checkDataS,
     .assign [.ident "ret"] [.indexExpr mData (.ident "key")] "=",
     .assign [.ident "ret"] [.ident "value"] "+=",
     .assign [.indexExpr mData (.ident "key")] [.ident "ret"] "=",
     unlockS, .ret []]

/-- Declaration `AddStores` from `templateCodeExTrue`. -/
def addStoresTrueDecl : Decl :=
  .funcDecl (some "m") (some (.starExpr (.ident "Map"))) "AddStores"
    [(["keys", "values"], .arrayType .iface)] none
    [lockS, checkDataS,
     .forRange (some "i") (some "key") (.ident "keys")
       [.assign [.indexExpr mData (.ident "key")]
          [.indexExpr (.ident "values") (.ident "i")] "+="],
     unlockS, .ret []]

/-- The deliberate not-implemented body of the stub declarations. -/
def notImplementedBody : List Stmt :=
  [.exprStmt (.call (.ident "panic") [.lit "\"Not Implemented\""]), .ret []]

/-- Declaration `AddStore` from `templateCodeExFalse`: a stub that fails at call time. -/
def addStoreFalseDecl : Decl :=
  .funcDecl (some "m") (some (.starExpr (.ident "Map"))) "AddStore"
    [(["key", "value"], .iface)] none notImplementedBody

/-- Declaration `AddStores` from `templateCodeExFalse` (note the parameter names). -/
def addStoresFalseDecl : Decl :=
  .funcDecl (some "m") (some (.starExpr (.ident "Map"))) "AddStores"
    [(["key", "value"], .arrayType .iface)] none notImplementedBody

/-- The template's top-level declarations in source order, with the
extension-toggle-dependent pair appended (main.go:381-385). -/
def templateDecls (ex : Bool) : List Decl :=
  [importsDecl, mapTypeDecl, checkDataDecl, initDecl, changeDecl, loadDecl,
   storeDecl, storesDecl, storeMapDecl, loadOrStoreDecl, loadAndDeleteDecl,
   deleteDecl, deleteAllDecl, rangeDecl, itemsDecl, itemMapDecl, fromDBDecl,
   toDBDecl, marshalJSONDecl, unmarshalJSONDecl, stringDecl] ++
  (if ex then [addStoreTrueDecl, addStoresTrueDecl]
   else [addStoreFalseDecl, addStoresFalseDecl])

/-- Whole `Generator.Mutate` on the real template (`sync` is already imported, so
`astutil.AddImport` leaves the import declaration unchanged; the package
name is overwritten with the caller's `pkg`). -/
def mutate (k v : Expr) (ex : Bool) (nm pkg : String) : Except MutError File :=
  mutateDecls k v nm pkg (templateDecls ex)

/-- The argument handling of `NewGenerator` (main.go:356-367), starting from
the result of `parser.ParseExpr` on the positional argument: `none` is a
parse failure; a parsed expression must be a `*ast.MapType`, whose key and
value are rendered to the canonical texts `g.key` and `g.value`. -/
def newGeneratorKV : Option Expr → Except MutError (String × String)
  | none => .error (.drift "parse expr")
  | some (.mapType a b) => .ok (print a, print b)
  | some _ => .error (.drift "invalid argument. expected map[T1]T2")

/-- The whole pipeline of `main` on a fixed declaration list: argument
handling, then `Mutate`; `failOnErr` exits before `Gen` on any error, so an
output artifact exists exactly when this returns `.ok`.  (`Gen` itself only
renders and writes the mutated file.) -/
def runDecls (arg : Option Expr) (nm pkg : String) (decls : List Decl) :
    Except MutError File :=
  match arg with
  | none => .error (.drift "parse expr")
  | some (.mapType a b) => mutateDecls a b nm pkg decls
  | some _ => .error (.drift "invalid argument. expected map[T1]T2")

/-- The whole pipeline of `main` on the real template. -/
def run (arg : Option Expr) (ex : Bool) (nm pkg : String) : Except MutError File :=
  runDecls arg nm pkg (templateDecls ex)

/-! ## Observers

`ifaceFree*` decides whether a subtree contains any residual placeholder
(`*ast.InterfaceType`) node; `retOperands*` collects the operand lists of
every return statement (the nodes whose direct parent is a `*ast.ReturnStmt`
in the Go tree). -/

mutual

def ifaceFreeE : Expr → Bool
  | .ident _ => true
  | .iface => false
  | .mapType a b => ifaceFreeE a && ifaceFreeE b
  | .arrayType e => ifaceFreeE e
  | .starExpr e => ifaceFreeE e
  | .selector x _ => ifaceFreeE x
  | .funcType ps rs => ifaceFreeFL ps && ifaceFreeOFL rs
  | .structType fs => ifaceFreeFL fs
  | .call f args => ifaceFreeE f && ifaceFreeL args
  | .compositeLit t es => ifaceFreeO t && ifaceFreeL es
  | .indexExpr x i => ifaceFreeE x && ifaceFreeE i
  | .lit _ => true
  | .binary _ a b => ifaceFreeE a && ifaceFreeE b
  | .unary _ x => ifaceFreeE x

def ifaceFreeL : List Expr → Bool
  | [] => true
  | e :: es => ifaceFreeE e && ifaceFreeL es

def ifaceFreeO : Option Expr → Bool
  | none => true
  | some e => ifaceFreeE e

def ifaceFreeFL : FieldList → Bool
  | [] => true
  | (_, t) :: fs => ifaceFreeE t && ifaceFreeFL fs

def ifaceFreeOFL : Option FieldList → Bool
  | none => true
  | some fl => ifaceFreeFL fl

end

mutual

def ifaceFreeS : Stmt → Bool
  | .exprStmt e => ifaceFreeE e
  | .assign l r _ => ifaceFreeL l && ifaceFreeL r
  | .ret es => ifaceFreeL es
  | .ifStmt c tb eb => ifaceFreeE c && ifaceFreeSL tb && ifaceFreeSL eb
  | .forRange _ _ x b => ifaceFreeE x && ifaceFreeSL b
  | .deferStmt e => ifaceFreeE e
  | .incDec x _ => ifaceFreeE x
  | .breakStmt => true
  | .block b => ifaceFreeSL b

def ifaceFreeSL : List Stmt → Bool
  | [] => true
  | st :: sts => ifaceFreeS st && ifaceFreeSL sts

end

def ifaceFreeSpec : Spec → Bool
  | .importSpec _ => true
  | .typeSpec _ ty => ifaceFreeE ty
  | .valueSpec _ ty vs => ifaceFreeO ty && ifaceFreeL vs

def ifaceFreeDecl : Decl → Bool
  | .funcDecl _ rt _ ps rs body =>
      ifaceFreeO rt && ifaceFreeFL ps && ifaceFreeOFL rs && ifaceFreeSL body
  | .genDecl specs => specs.all ifaceFreeSpec
  | .badDecl => true

def ifaceFreeFile (f : File) : Bool := f.decls.all ifaceFreeDecl

mutual

def retOperandsS : Stmt → List (List Expr)
  | .exprStmt _ => []
  | .assign _ _ _ => []
  | .ret es => [es]
  | .ifStmt _ tb eb => retOperandsSL tb ++ retOperandsSL eb
  | .forRange _ _ _ b => retOperandsSL b
  | .deferStmt _ => []
  | .incDec _ _ => []
  | .breakStmt => []
  | .block b => retOperandsSL b

def retOperandsSL : List Stmt → List (List Expr)
  | [] => []
  | st :: sts => retOperandsS st ++ retOperandsSL sts

end

/-! ## Supporting lemmas -/

mutual

theorem ifaceFree_mapNamesE (f : String → String) :
    ∀ e, ifaceFreeE (mapNamesE f e) = ifaceFreeE e
  | .ident _ => rfl
  | .iface => rfl
  | .mapType a b => by
      simp [mapNamesE, ifaceFreeE, ifaceFree_mapNamesE f a, ifaceFree_mapNamesE f b]
  | .arrayType e => by simp [mapNamesE, ifaceFreeE, ifaceFree_mapNamesE f e]
  | .starExpr e => by simp [mapNamesE, ifaceFreeE, ifaceFree_mapNamesE f e]
  | .selector x _ => by simp [mapNamesE, ifaceFreeE, ifaceFree_mapNamesE f x]
  | .funcType ps rs => by
      simp [mapNamesE, ifaceFreeE, ifaceFree_mapNamesFL f ps, ifaceFree_mapNamesOFL f rs]
  | .structType fs => by simp [mapNamesE, ifaceFreeE, ifaceFree_mapNamesFL f fs]
  | .call fn args => by
      simp [mapNamesE, ifaceFreeE, ifaceFree_mapNamesE f fn, ifaceFree_mapNamesL f args]
  | .compositeLit t es => by
      simp [mapNamesE, ifaceFreeE, ifaceFree_mapNamesO f t, ifaceFree_mapNamesL f es]
  | .indexExpr x i => by
      simp [mapNamesE, ifaceFreeE, ifaceFree_mapNamesE f x, ifaceFree_mapNamesE f i]
  | .lit _ => rfl
  | .binary _ a b => by
      simp [mapNamesE, ifaceFreeE, ifaceFree_mapNamesE f a, ifaceFree_mapNamesE f b]
  | .unary _ x => by simp [mapNamesE, ifaceFreeE, ifaceFree_mapNamesE f x]

theorem ifaceFree_mapNamesL (f : String → String) :
    ∀ es, ifaceFreeL (mapNamesL f es) = ifaceFreeL es
  | [] => rfl
  | e :: es => by
      simp [mapNamesL, ifaceFreeL, ifaceFree_mapNamesE f e, ifaceFree_mapNamesL f es]

theorem ifaceFree_mapNamesO (f : String → String) :
    ∀ oe, ifaceFreeO (mapNamesO f oe) = ifaceFreeO oe
  | none => rfl
  | some e => by simp [mapNamesO, ifaceFreeO, ifaceFree_mapNamesE f e]

theorem ifaceFree_mapNamesFL (f : String → String) :
    ∀ fl, ifaceFreeFL (mapNamesFL f fl) = ifaceFreeFL fl
  | [] => rfl
  | (ns, t) :: fs => by
      simp [mapNamesFL, ifaceFreeFL, ifaceFree_mapNamesE f t, ifaceFree_mapNamesFL f fs]

theorem ifaceFree_mapNamesOFL (f : String → String) :
    ∀ ofl, ifaceFreeOFL (mapNamesOFL f ofl) = ifaceFreeOFL ofl
  | none => rfl
  | some fl => by simp [mapNamesOFL, ifaceFreeOFL, ifaceFree_mapNamesFL f fl]

end

mutual

theorem ifaceFree_mapNamesS (f : String → String) :
    ∀ st, ifaceFreeS (mapNamesS f st) = ifaceFreeS st
  | .exprStmt e => by simp [mapNamesS, ifaceFreeS, ifaceFree_mapNamesE f e]
  | .assign l r tok => by
      simp [mapNamesS, ifaceFreeS, ifaceFree_mapNamesL f l, ifaceFree_mapNamesL f r]
  | .ret es => by simp [mapNamesS, ifaceFreeS, ifaceFree_mapNamesL f es]
  | .ifStmt c tb eb => by
      simp [mapNamesS, ifaceFreeS, ifaceFree_mapNamesE f c,
        ifaceFree_mapNamesSL f tb, ifaceFree_mapNamesSL f eb]
  | .forRange kn vn x b => by
      simp [mapNamesS, ifaceFreeS, ifaceFree_mapNamesE f x, ifaceFree_mapNamesSL f b]
  | .deferStmt e => by simp [mapNamesS, ifaceFreeS, ifaceFree_mapNamesE f e]
  | .incDec x _ => by simp [mapNamesS, ifaceFreeS, ifaceFree_mapNamesE f x]
  | .breakStmt => rfl
  | .block b => by simp [mapNamesS, ifaceFreeS, ifaceFree_mapNamesSL f b]

theorem ifaceFree_mapNamesSL (f : String → String) :
    ∀ sts, ifaceFreeSL (mapNamesSL f sts) = ifaceFreeSL sts
  | [] => rfl
  | st :: sts => by
      simp [mapNamesSL, ifaceFreeSL, ifaceFree_mapNamesS f st, ifaceFree_mapNamesSL f sts]

end

theorem ifaceFree_mapNamesSpec (f : String → String) (s : Spec) :
    ifaceFreeSpec (mapNamesSpec f s) = ifaceFreeSpec s := by
  cases s with
  | importSpec p => rfl
  | typeSpec nm ty => simp [mapNamesSpec, ifaceFreeSpec, ifaceFree_mapNamesE f ty]
  | valueSpec ns ty vs =>
      simp [mapNamesSpec, ifaceFreeSpec, ifaceFree_mapNamesO f ty, ifaceFree_mapNamesL f vs]

theorem ifaceFree_mapNamesDecl (f : String → String) (d : Decl) :
    ifaceFreeDecl (mapNamesDecl f d) = ifaceFreeDecl d := by
  cases d with
  | funcDecl rn rt nm ps rs body =>
      simp [mapNamesDecl, ifaceFreeDecl, ifaceFree_mapNamesO f rt,
        ifaceFree_mapNamesFL f ps, ifaceFree_mapNamesOFL f rs, ifaceFree_mapNamesSL f body]
  | genDecl specs =>
      simp [mapNamesDecl, ifaceFreeDecl, List.all_map, Function.comp]
      congr 1
      funext s
      exact ifaceFree_mapNamesSpec f s
  | badDecl => rfl

theorem ifaceFree_mapNamesFile (f : String → String) (fl : File) :
    ifaceFreeFile (mapNamesFile f fl) = ifaceFreeFile fl := by
  cases fl with
  | mk nm ds =>
      simp [mapNamesFile, ifaceFreeFile, List.all_map, Function.comp]
      congr 1
      funext d
      exact ifaceFree_mapNamesDecl f d

mutual

theorem retOperands_renameNilS (nm : String) :
    ∀ st, retOperandsS (renameNilS nm st) = (retOperandsS st).map (List.map (nilTo nm))
  | .exprStmt _ => rfl
  | .assign _ _ _ => rfl
  | .ret es => by simp [renameNilS, retOperandsS]
  | .ifStmt c tb eb => by
      simp [renameNilS, retOperandsS, retOperands_renameNilSL nm tb,
        retOperands_renameNilSL nm eb]
  | .forRange kn vn x b => by
      simp [renameNilS, retOperandsS, retOperands_renameNilSL nm b]
  | .deferStmt _ => rfl
  | .incDec _ _ => rfl
  | .breakStmt => rfl
  | .block b => by simp [renameNilS, retOperandsS, retOperands_renameNilSL nm b]

theorem retOperands_renameNilSL (nm : String) :
    ∀ sl, retOperandsSL (renameNilSL nm sl) = (retOperandsSL sl).map (List.map (nilTo nm))
  | [] => rfl
  | st :: sts => by
      simp [renameNilSL, retOperandsSL, retOperands_renameNilS nm st,
        retOperands_renameNilSL nm sts]

end

/-! ## Claim C2 -/

set_option maxHeartbeats 4000000 in
/-- C2 (amended): for every pair of key and value type expressions that
themselves contain no placeholder (`interface\x7b\x7d`) occurrence, and for
both extension-toggle variants, a specialization run succeeds and the
resulting tree contains zero remaining placeholder-type occurrences: every
placeholder of every declaration has been replaced by the key or value
type. -/
theorem C2_amended (k v : Expr) (ex : Bool) (nm pkg : String)
    (hk : ifaceFreeE k = true) (hv : ifaceFreeE v = true) :
    (mutate k v ex nm pkg).map ifaceFreeFile = .ok true := by
  cases ex <;> cases hpv : (print k == print v) <;>
  · simp [mutate, mutateDecls, walkAll, step, registries, funcsRegistry, typesRegistry,
      valuesRegistry, templateDecls, importsDecl, mapTypeDecl, checkDataDecl, initDecl,
      changeDecl, loadDecl, storeDecl, storesDecl, storeMapDecl, loadOrStoreDecl,
      loadAndDeleteDecl, deleteDecl, deleteAllDecl, rangeDecl, itemsDecl, itemMapDecl,
      fromDBDecl, toDBDecl, marshalJSONDecl, unmarshalJSONDecl, stringDecl,
      addStoreFalseDecl, addStoresFalseDecl, addStoreTrueDecl, addStoresTrueDecl,
      notImplementedBody,
      renameTuple, renameTupleList, hpv, List.lookup, eraseKey,
      renameMapTypeSL, renameMapTypeS, renameMapTypeE, renameMapTypeL, renameMapTypeO,
      renameMapTypeFL, renameMapTypeOFL, isIface,
      replaceIfaceE, replaceIfaceL, replaceIfaceO, replaceIfaceFL, replaceIfaceOFL,
      replaceIfaceS, replaceIfaceSL, replaceIfaceDecl,
      renameMapKeysValuesSL, renameMapKeysValuesS, renameMapKeysValuesAssign,
      renameNilSL, renameNilS, nilTo,
      mData, mapII, lockS, unlockS, rlockS, runlockS, deferUnlockS, deferRUnlockS,
      checkDataS, Except.map]
    rw [ifaceFree_mapNamesFile]
    simp only [ifaceFreeFile, ifaceFreeDecl, ifaceFreeSpec, ifaceFreeE, ifaceFreeL,
      ifaceFreeO, ifaceFreeFL, ifaceFreeOFL, ifaceFreeS, ifaceFreeSL,
      List.all_cons, List.all_nil, hk, hv, Bool.and_true, Bool.true_and, Bool.and_self]

/-- C2 witness: with `K = string`, `V = int` the run succeeds and the result
is placeholder-free. -/
theorem C2_amended_witness :
    (mutate (.ident "string") (.ident "int") false "Counter" "main").map ifaceFreeFile
      = .ok true :=
  C2_amended (.ident "string") (.ident "int") false "Counter" "main" rfl rfl

/-- C2 counterexample: with the syntactically valid key type expression
`interface\x7b\x7d` itself (and `V = int`), the specialization run succeeds
but the resulting tree still contains placeholder-type occurrences, so the
claim as stated (for *every* pair of syntactically valid type expressions)
is false. -/
theorem C2_counterexample :
    (mutate .iface (.ident "int") false "Map" "main").map ifaceFreeFile
      = .ok false := by
  rfl

/-! ## Claim C3 -/

/-- C3: for every dual-slot field list (one field, two names, placeholder
type — or placeholder-slice type for the list form): if the key type text
equals the value type text, `renameTuple`/`renameTupleList` leave exactly
one substituted field of the key type; otherwise they leave exactly two
fields, the first keeping the first original name and carrying the key
type, the second carrying the second original name and the value type, in
that order. -/
theorem C3_dual_slot (k v : Expr) (n1 n2 : String) :
    (renameTuple k v [([n1, n2], .iface)] =
      some (if print k == print v then [([n1, n2], k)]
            else [([n1], k), ([n2], v)]))
    ∧ (renameTupleList k v [([n1, n2], .arrayType .iface)] =
      some (if print k == print v then [([n1, n2], .arrayType k)]
            else [([n1], .arrayType k), ([n2], .arrayType v)])) := by
  constructor <;>
  · cases hpv : (print k == print v) <;>
      simp [renameTuple, renameTupleList, hpv, replaceIfaceE]

/-! ## Claim C4 -/

/-- C4: the map-type substitution replaces a map-type node wholesale with
`map[K]V` exactly when both its key half and its value half are still the
placeholder type; a map type with a concrete key or value half is never
rewritten itself — the traversal merely descends into its two halves. -/
theorem C4_map_substitution (k v a b : Expr) :
    (renameMapTypeE k v (.mapType .iface .iface) = .mapType k v)
    ∧ ((isIface a && isIface b) = false →
        renameMapTypeE k v (.mapType a b) =
          .mapType (renameMapTypeE k v a) (renameMapTypeE k v b)) := by
  refine ⟨by simp [renameMapTypeE, isIface], fun h => ?_⟩
  simp [renameMapTypeE, h]

/-- C4 witness: a map type whose key half is already concrete (`int`) is
not replaced wholesale. -/
theorem C4_map_substitution_witness :
    renameMapTypeE (.ident "string") (.ident "int") (.mapType (.ident "int") .iface)
      = .mapType (.ident "int") .iface :=
  (C4_map_substitution (.ident "string") (.ident "int") (.ident "int") .iface).2 rfl

/-! ## Claim C5 -/

/-- Look up a function handler in the registry and apply it, as the walk in
`Generator.Mutate` does. -/
def applyFuncHandler (k v : Expr) (fname : String) (d : Decl) : Option (Option Decl) :=
  ((funcsRegistry k v).lookup fname).map (fun h => h d)

/-- C5: the registered `Load` and `LoadAndDelete` handlers rewrite the body
with `renameNil` keyed to the first name of the first declared result field
(after substituting parameters with the key type and results with the value
type), and `renameNil` rewrites exactly the `nil` identifiers that are
direct operands of a return statement to that name: the collected return
operands of the rewritten body are the original ones with `nil` mapped to
the first named result. -/
theorem C5_nil_rewrite (k v : Expr) (rn : Option String) (rt : Option Expr)
    (ps : FieldList) (n0 : String) (ns : List String) (t : Expr)
    (rest : FieldList) (body : List Stmt) :
    (applyFuncHandler k v "Load"
        (.funcDecl rn rt "Load" ps (some ((n0 :: ns, t) :: rest)) body)
      = some (some (.funcDecl rn rt "Load" (replaceIfaceFL k ps)
          (some (replaceIfaceFL v ((n0 :: ns, t) :: rest))) (renameNilSL n0 body))))
    ∧ (applyFuncHandler k v "LoadAndDelete"
        (.funcDecl rn rt "LoadAndDelete" ps (some ((n0 :: ns, t) :: rest)) body)
      = some (some (.funcDecl rn rt "LoadAndDelete" (replaceIfaceFL k ps)
          (some (replaceIfaceFL v ((n0 :: ns, t) :: rest))) (renameNilSL n0 body))))
    ∧ (∀ (nm : String) (sl : List Stmt),
        retOperandsSL (renameNilSL nm sl) = (retOperandsSL sl).map (List.map (nilTo nm)))
    ∧ (∀ nm : String, nilTo nm (.ident "nil") = .ident nm) := by
  refine ⟨rfl, rfl, fun nm sl => retOperands_renameNilSL nm sl, fun nm => rfl⟩

/-! ## Claim C6 -/

/-- C6 counterexample: an assignment whose left-hand identifier is named
neither `keys` nor `values` (here `x`) still has its allocation's element
type substituted with the *value* type — refuting "substituted with the
value type exactly when the left-hand identifier is named `values`". -/
theorem C6_counterexample :
    renameMapKeysValuesS (.ident "string") (.ident "int")
        (.assign [.ident "x"]
          [.call (.ident "make") [.arrayType .iface, .ident "n"]] "=")
      = .assign [.ident "x"]
          [.call (.ident "make") [.arrayType (.ident "int"), .ident "n"]] "="
    ∧ "x" ≠ "values" :=
  ⟨rfl, by decide⟩

/-- C6 (amended): for every assignment statement whose right-hand side is a
`make` call and whose left-hand side is a plain identifier, the allocation's
element type is substituted with the key type exactly when the identifier
is named `keys`, and with the value type for every other name (in
particular for `values`). -/
theorem C6_amended (k v : Expr) (nm : String) (a1 : Expr) (args lrest rrest : List Expr)
    (tok : String) :
    renameMapKeysValuesS k v
        (.assign (.ident nm :: lrest) (.call (.ident "make") (a1 :: args) :: rrest) tok)
      = .assign (.ident nm :: lrest)
          (.call (.ident "make")
            ((if nm == "keys" then replaceIfaceE k a1 else replaceIfaceE v a1) :: args)
            :: rrest) tok := by
  rfl

/-! ## Claim C8 -/

/-- Is this expression a `*ast.MapType`? -/
def isMapType : Expr → Bool
  | .mapType _ _ => true
  | _ => false

/-- C8: when the positional type argument does not parse to a map-type
expression (parse failure or any other top-level shape), `NewGenerator`
fails with an error rejecting the argument; when it is a map-type
expression, the key and value sub-expressions are extracted and
re-serialized to their canonical texts (`g.key`, `g.value`). -/
theorem C8_argument_handling :
    (newGeneratorKV none = .error (.drift "parse expr"))
    ∧ (∀ e : Expr, isMapType e = false →
        newGeneratorKV (some e) = .error (.drift "invalid argument. expected map[T1]T2"))
    ∧ (∀ a b : Expr, newGeneratorKV (some (.mapType a b)) = .ok (print a, print b)) := by
  refine ⟨rfl, fun e h => ?_, fun a b => rfl⟩
  cases e <;> simp_all [isMapType, newGeneratorKV]

/-- C8 witness: a non-map type expression (`int`) is rejected with the
invalid-argument error. -/
theorem C8_argument_handling_witness :
    newGeneratorKV (some (.ident "int"))
      = .error (.drift "invalid argument. expected map[T1]T2") :=
  C8_argument_handling.2.1 (.ident "int") rfl

/-! ## Claim C9 -/

/-- The name a declaration is looked up under during the walk. -/
def declName : Decl → String
  | .funcDecl _ _ n _ _ _ => n
  | .genDecl (.typeSpec n _ :: _) => n
  | .genDecl (.valueSpec (n :: _) _ _ :: _) => n
  | _ => ""

/-- The body of the function declaration with the given name, if any. -/
def funcBody (nm : String) : List Decl → Option (List Stmt)
  | [] => none
  | .funcDecl _ _ n _ _ body :: ds => if n = nm then some body else funcBody nm ds
  | _ :: ds => funcBody nm ds

/-- Success test for a mutation outcome. -/
def mutOk : Except MutError File → Bool
  | .ok _ => true
  | .error _ => false

/-- C9: the registry of recognized declaration names is a fixed list
independent of the extension toggle (and of the caller's types); both
template variants declare the same names in the same order; with the toggle
off the two appended accumulate declarations have the deliberate
`panic("Not Implemented")` stub body, while with the toggle on both perform
genuine numeric accumulation (`AddStore` writes `ret += value` back,
`AddStores` accumulates `m.data[key] += values[i]` over the parallel
slices); and both variants are processed successfully through the same
registry and rewrite machinery. -/
theorem C9_toggle_stability (k v : Expr) :
    ((funcsRegistry k v).map Prod.fst =
      ["Init", "checkData", "Change", "Load", "Store", "AddStore", "AddStores",
       "Stores", "LoadOrStore", "LoadAndDelete", "Range", "Items", "ItemMap",
       "StoreMap", "Delete", "DeleteAll", "FromDB", "ToDB", "MarshalJSON",
       "UnmarshalJSON", "String"])
    ∧ ((templateDecls true).map declName = (templateDecls false).map declName)
    ∧ (funcBody "AddStore" (templateDecls false) = some notImplementedBody)
    ∧ (funcBody "AddStores" (templateDecls false) = some notImplementedBody)
    ∧ (funcBody "AddStore" (templateDecls true) = some
        [lockS, checkDataS,
         .assign [.ident "ret"] [.indexExpr mData (.ident "key")] "=",
         .assign [.ident "ret"] [.ident "value"] "+=",
         .assign [.indexExpr mData (.ident "key")] [.ident "ret"] "=",
         unlockS, .ret []])
    ∧ (funcBody "AddStores" (templateDecls true) = some
        [lockS, checkDataS,
         .forRange (some "i") (some "key") (.ident "keys")
           [.assign [.indexExpr mData (.ident "key")]
              [.indexExpr (.ident "values") (.ident "i")] "+="],
         unlockS, .ret []])
    ∧ (mutOk (mutate (.ident "string") (.ident "int") true "Tally" "main") = true)
    ∧ (mutOk (mutate (.ident "string") (.ident "int") false "Tally" "main") = true) := by
  refine ⟨rfl, rfl, rfl, rfl, rfl, rfl, rfl, rfl⟩

/-! ## Claim C1 -/

/-- The walk encounters this declaration but the (current) registry has no
handler for it: a function, type, or value declaration whose name is
missing from the corresponding namespace of the registry. -/
def unrecognizedBy (r : Registries) : Decl → Prop
  | .funcDecl _ _ n _ _ _ => n ∉ r.funcs.map Prod.fst
  | .genDecl (.typeSpec n _ :: _) => n ∉ r.types.map Prod.fst
  | .genDecl (.valueSpec (n :: _) _ _ :: _) => n ∉ r.values.map Prod.fst
  | _ => False

/-- This declaration is the one that consumes the function-registry entry
named `n`. -/
def consumesFunc (n : String) : Decl → Prop
  | .funcDecl _ _ m _ _ _ => m = n
  | _ => False

/-- This declaration is the one that consumes the type-registry entry
named `n`. -/
def consumesType (n : String) : Decl → Prop
  | .genDecl (.typeSpec m _ :: _) => m = n
  | _ => False

/-- This declaration is the one that consumes the value-registry entry
named `n`. -/
def consumesValue (n : String) : Decl → Prop
  | .genDecl (.valueSpec (m :: _) _ _ :: _) => m = n
  | _ => False

theorem lookup_eq_none_of_not_mem {α : Type} (n : String) :
    ∀ l : List (String × α), n ∉ l.map Prod.fst → l.lookup n = none := by
  intro l
  induction l with
  | nil => intro _; rfl
  | cons p rest ih =>
      intro h
      obtain ⟨key, val⟩ := p
      simp only [List.map_cons, List.mem_cons] at h
      push_neg at h
      simp [List.lookup, beq_eq_false_iff_ne.mpr h.1, ih h.2]

theorem mem_keys_of_mem_keys_eraseKey {α : Type} (m n : String) :
    ∀ l : List (String × α), n ∈ (eraseKey m l).map Prod.fst → n ∈ l.map Prod.fst := by
  intro l
  induction l with
  | nil => intro h; exact absurd h (by simp [eraseKey])
  | cons p rest ih =>
      intro h
      obtain ⟨key, val⟩ := p
      by_cases hk : key = m
      · simp only [eraseKey, if_pos hk] at h
        exact List.mem_cons_of_mem _ (ih h)
      · simp only [eraseKey, if_neg hk, List.map_cons, List.mem_cons] at h ⊢
        rcases h with h | h
        · exact Or.inl h
        · exact Or.inr (ih h)

theorem mem_keys_eraseKey_of_ne {α : Type} (m n : String) (hne : n ≠ m) :
    ∀ l : List (String × α), n ∈ l.map Prod.fst → n ∈ (eraseKey m l).map Prod.fst := by
  intro l
  induction l with
  | nil => intro h; exact absurd h (by simp)
  | cons p rest ih =>
      intro h
      obtain ⟨key, val⟩ := p
      simp only [List.map_cons, List.mem_cons] at h
      by_cases hk : key = m
      · rcases h with h | h
        · exact absurd (h ▸ hk) hne
        · simp only [eraseKey, if_pos hk]
          exact ih h
      · simp only [eraseKey, if_neg hk, List.map_cons, List.mem_cons]
        rcases h with h | h
        · exact Or.inl h
        · exact Or.inr (ih h)

theorem ne_nil_of_mem_keys {α : Type} (n : String) (l : List (String × α))
    (h : n ∈ l.map Prod.fst) : l.length ≠ 0 := by
  cases l with
  | nil => exact absurd h (by simp)
  | cons p rest => simp

/-- How one successful walk iteration changes each registry namespace:
either untouched, or one entry erased, and erasure happens only for the
name the processed declaration consumes. -/
theorem step_registry_shape (r r' : Registries) (d d' : Decl)
    (h : step r d = .ok (r', d')) :
    (r'.funcs = r.funcs ∨ ∃ nm, r'.funcs = eraseKey nm r.funcs ∧ consumesFunc nm d)
    ∧ (r'.types = r.types ∨ ∃ nm, r'.types = eraseKey nm r.types ∧ consumesType nm d)
    ∧ (r'.values = r.values ∨ ∃ nm, r'.values = eraseKey nm r.values ∧ consumesValue nm d) := by
  cases d with
  | funcDecl rn rt n ps rs body =>
      simp only [step] at h
      cases hl : r.funcs.lookup n with
      | none => simp only [hl] at h; exact absurd h (by simp)
      | some hh =>
          simp only [hl] at h
          cases hd : hh (.funcDecl rn rt n ps rs body) with
          | none => simp only [hd] at h; exact absurd h (by simp)
          | some d2 =>
              simp only [hd, Except.ok.injEq, Prod.mk.injEq] at h
              obtain ⟨h1, _⟩ := h
              refine ⟨Or.inr ⟨n, ?_, rfl⟩, Or.inl ?_, Or.inl ?_⟩ <;> rw [← h1]
  | genDecl specs =>
      cases specs with
      | nil => exact absurd h (by simp [step])
      | cons s0 rest =>
          cases s0 with
          | importSpec p =>
              simp only [step, Except.ok.injEq, Prod.mk.injEq] at h
              obtain ⟨h1, _⟩ := h
              rw [← h1]
              exact ⟨Or.inl rfl, Or.inl rfl, Or.inl rfl⟩
          | typeSpec nm ty =>
              simp only [step] at h
              cases hl : r.types.lookup nm with
              | none => simp only [hl] at h; exact absurd h (by simp)
              | some hh =>
                  simp only [hl] at h
                  cases hd : hh (.typeSpec nm ty) with
                  | none => simp only [hd] at h; exact absurd h (by simp)
                  | some s0' =>
                      simp only [hd, Except.ok.injEq, Prod.mk.injEq] at h
                      obtain ⟨h1, _⟩ := h
                      refine ⟨Or.inl ?_, Or.inr ⟨nm, ?_, rfl⟩, Or.inl ?_⟩ <;> rw [← h1]
          | valueSpec names ty vals =>
              cases names with
              | nil => exact absurd h (by simp [step])
              | cons n0 nrest =>
                  simp only [step] at h
                  cases hl : r.values.lookup n0 with
                  | none => simp only [hl] at h; exact absurd h (by simp)
                  | some hh =>
                      simp only [hl] at h
                      cases hd : hh (.valueSpec (n0 :: nrest) ty vals) with
                      | none => simp only [hd] at h; exact absurd h (by simp)
                      | some s0' =>
                          simp only [hd] at h
                          cases hemp : nrest.isEmpty with
                          | false =>
                              simp only [hemp, Bool.false_eq_true, if_false] at h
                              exact absurd h (by simp)
                          | true =>
                              simp only [hemp, if_true, Except.ok.injEq,
                                Prod.mk.injEq] at h
                              obtain ⟨h1, _⟩ := h
                              refine ⟨Or.inl ?_, Or.inl ?_, Or.inr ⟨n0, ?_, rfl⟩⟩ <;>
                                rw [← h1]
  | badDecl => exact absurd h (by simp [step])

/-- A successful walk iteration only shrinks the registries. -/
theorem step_keys_mono (r r' : Registries) (d d' : Decl)
    (h : step r d = .ok (r', d')) (n : String) :
    (n ∈ r'.funcs.map Prod.fst → n ∈ r.funcs.map Prod.fst)
    ∧ (n ∈ r'.types.map Prod.fst → n ∈ r.types.map Prod.fst)
    ∧ (n ∈ r'.values.map Prod.fst → n ∈ r.values.map Prod.fst) := by
  obtain ⟨hf, ht, hv⟩ := step_registry_shape r r' d d' h
  refine ⟨?_, ?_, ?_⟩
  · rcases hf with h1 | ⟨nm, h1, _⟩ <;> rw [h1]
    · exact id
    · exact mem_keys_of_mem_keys_eraseKey nm n r.funcs
  · rcases ht with h1 | ⟨nm, h1, _⟩ <;> rw [h1]
    · exact id
    · exact mem_keys_of_mem_keys_eraseKey nm n r.types
  · rcases hv with h1 | ⟨nm, h1, _⟩ <;> rw [h1]
    · exact id
    · exact mem_keys_of_mem_keys_eraseKey nm n r.values

/-- If the walk encounters a declaration with no registered handler, the
iteration fails. -/
theorem step_err_of_unrecognized (r : Registries) (d : Decl)
    (h : unrecognizedBy r d) : ∃ e, step r d = .error e := by
  cases d with
  | funcDecl rn rt n ps rs body =>
      refine ⟨.drift ("unrecognized function: " ++ n), ?_⟩
      simp only [step, lookup_eq_none_of_not_mem n r.funcs h]
  | genDecl specs =>
      cases specs with
      | nil => exact absurd h (by simp [unrecognizedBy])
      | cons s0 rest =>
          cases s0 with
          | importSpec p => exact absurd h (by simp [unrecognizedBy])
          | typeSpec nm ty =>
              refine ⟨.drift ("unrecognized type: " ++ nm), ?_⟩
              simp only [step, lookup_eq_none_of_not_mem nm r.types h]
          | valueSpec names ty vals =>
              cases names with
              | nil => exact absurd h (by simp [unrecognizedBy])
              | cons n0 nrest =>
                  refine ⟨.drift ("unrecognized value: " ++ n0), ?_⟩
                  simp only [step, lookup_eq_none_of_not_mem n0 r.values h]
  | badDecl => exact ⟨.drift "unrecognized decl", rfl⟩

/-- Being unrecognized is stable as the registries shrink along the walk. -/
theorem unrecognized_mono (r r' : Registries) (d d' dd : Decl)
    (hstep : step r d = .ok (r', d')) (h : unrecognizedBy r dd) :
    unrecognizedBy r' dd := by
  cases dd with
  | funcDecl rn rt n ps rs body =>
      exact fun hmem => h ((step_keys_mono r r' d d' hstep n).1 hmem)
  | genDecl specs =>
      cases specs with
      | nil => exact absurd h (by simp [unrecognizedBy])
      | cons s0 rest =>
          cases s0 with
          | importSpec p => exact absurd h (by simp [unrecognizedBy])
          | typeSpec nm ty =>
              exact fun hmem => h ((step_keys_mono r r' d d' hstep nm).2.1 hmem)
          | valueSpec names ty vals =>
              cases names with
              | nil => exact absurd h (by simp [unrecognizedBy])
              | cons n0 nrest =>
                  exact fun hmem => h ((step_keys_mono r r' d d' hstep n0).2.2 hmem)
  | badDecl => exact absurd h (by simp [unrecognizedBy])

/-- If any declaration of the list is (still) unrecognized, the walk fails. -/
theorem walkAll_err_of_unrecognized :
    ∀ (decls : List Decl) (r : Registries),
      (∃ d ∈ decls, unrecognizedBy r d) → ∃ e, walkAll r decls = .error e := by
  intro decls
  induction decls with
  | nil => intro r h; obtain ⟨d, hd, _⟩ := h; exact absurd hd (by simp)
  | cons d0 ds ih =>
      intro r h
      obtain ⟨d, hd, hun⟩ := h
      cases hstep : step r d0 with
      | error e => exact ⟨e, by simp [walkAll, hstep]⟩
      | ok rd =>
          obtain ⟨r1, d1⟩ := rd
          rcases List.mem_cons.mp hd with rfl | hmem
          · obtain ⟨e, he⟩ := step_err_of_unrecognized r d hun
            rw [hstep] at he
            exact absurd he (by simp)
          · obtain ⟨e, he⟩ := ih r1 ⟨d, hmem, unrecognized_mono r r1 d0 d1 d hstep hun⟩
            exact ⟨e, by simp [walkAll, hstep, he]⟩

/-- A registry entry consumed by none of the declarations survives the
whole walk (function namespace). -/
theorem walkAll_keeps_funcs :
    ∀ (decls : List Decl) (r r' : Registries) (ds' : List Decl) (n : String),
      walkAll r decls = .ok (r', ds') → n ∈ r.funcs.map Prod.fst →
      (∀ d ∈ decls, ¬ consumesFunc n d) → n ∈ r'.funcs.map Prod.fst := by
  intro decls
  induction decls with
  | nil =>
      intro r r' ds' n hwalk hmem _
      simp only [walkAll, Except.ok.injEq, Prod.mk.injEq] at hwalk
      rw [← hwalk.1]; exact hmem
  | cons d0 ds ih =>
      intro r r' ds' n hwalk hmem hcons
      cases hstep : step r d0 with
      | error e => simp only [walkAll, hstep] at hwalk; exact absurd hwalk (by simp)
      | ok rd =>
          obtain ⟨r1, d1⟩ := rd
          simp only [walkAll, hstep] at hwalk
          cases hrest : walkAll r1 ds with
          | error e => simp only [hrest] at hwalk; exact absurd hwalk (by simp)
          | ok rds =>
              obtain ⟨r2, ds2⟩ := rds
              simp only [hrest] at hwalk
              simp only [Except.ok.injEq, Prod.mk.injEq] at hwalk
              have hmem1 : n ∈ r1.funcs.map Prod.fst := by
                obtain ⟨hf, _, _⟩ := step_registry_shape r r1 d0 d1 hstep
                rcases hf with h1 | ⟨nm, h1, hc⟩
                · rw [h1]; exact hmem
                · rw [h1]
                  refine mem_keys_eraseKey_of_ne nm n ?_ r.funcs hmem
                  intro heq
                  exact hcons d0 (List.mem_cons_self d0 ds) (heq ▸ hc)
              have := ih r1 r2 ds2 n hrest hmem1
                (fun d hd => hcons d (List.mem_cons_of_mem d0 hd))
              rw [← hwalk.1]; exact this

/-- As `walkAll_keeps_funcs`, for the type namespace. -/
theorem walkAll_keeps_types :
    ∀ (decls : List Decl) (r r' : Registries) (ds' : List Decl) (n : String),
      walkAll r decls = .ok (r', ds') → n ∈ r.types.map Prod.fst →
      (∀ d ∈ decls, ¬ consumesType n d) → n ∈ r'.types.map Prod.fst := by
  intro decls
  induction decls with
  | nil =>
      intro r r' ds' n hwalk hmem _
      simp only [walkAll, Except.ok.injEq, Prod.mk.injEq] at hwalk
      rw [← hwalk.1]; exact hmem
  | cons d0 ds ih =>
      intro r r' ds' n hwalk hmem hcons
      cases hstep : step r d0 with
      | error e => simp only [walkAll, hstep] at hwalk; exact absurd hwalk (by simp)
      | ok rd =>
          obtain ⟨r1, d1⟩ := rd
          simp only [walkAll, hstep] at hwalk
          cases hrest : walkAll r1 ds with
          | error e => simp only [hrest] at hwalk; exact absurd hwalk (by simp)
          | ok rds =>
              obtain ⟨r2, ds2⟩ := rds
              simp only [hrest] at hwalk
              simp only [Except.ok.injEq, Prod.mk.injEq] at hwalk
              have hmem1 : n ∈ r1.types.map Prod.fst := by
                obtain ⟨_, ht, _⟩ := step_registry_shape r r1 d0 d1 hstep
                rcases ht with h1 | ⟨nm, h1, hc⟩
                · rw [h1]; exact hmem
                · rw [h1]
                  refine mem_keys_eraseKey_of_ne nm n ?_ r.types hmem
                  intro heq
                  exact hcons d0 (List.mem_cons_self d0 ds) (heq ▸ hc)
              have := ih r1 r2 ds2 n hrest hmem1
                (fun d hd => hcons d (List.mem_cons_of_mem d0 hd))
              rw [← hwalk.1]; exact this

/-- As `walkAll_keeps_funcs`, for the value namespace. -/
theorem walkAll_keeps_values :
    ∀ (decls : List Decl) (r r' : Registries) (ds' : List Decl) (n : String),
      walkAll r decls = .ok (r', ds') → n ∈ r.values.map Prod.fst →
      (∀ d ∈ decls, ¬ consumesValue n d) → n ∈ r'.values.map Prod.fst := by
  intro decls
  induction decls with
  | nil =>
      intro r r' ds' n hwalk hmem _
      simp only [walkAll, Except.ok.injEq, Prod.mk.injEq] at hwalk
      rw [← hwalk.1]; exact hmem
  | cons d0 ds ih =>
      intro r r' ds' n hwalk hmem hcons
      cases hstep : step r d0 with
      | error e => simp only [walkAll, hstep] at hwalk; exact absurd hwalk (by simp)
      | ok rd =>
          obtain ⟨r1, d1⟩ := rd
          simp only [walkAll, hstep] at hwalk
          cases hrest : walkAll r1 ds with
          | error e => simp only [hrest] at hwalk; exact absurd hwalk (by simp)
          | ok rds =>
              obtain ⟨r2, ds2⟩ := rds
              simp only [hrest] at hwalk
              simp only [Except.ok.injEq, Prod.mk.injEq] at hwalk
              have hmem1 : n ∈ r1.values.map Prod.fst := by
                obtain ⟨_, _, hv⟩ := step_registry_shape r r1 d0 d1 hstep
                rcases hv with h1 | ⟨nm, h1, hc⟩
                · rw [h1]; exact hmem
                · rw [h1]
                  refine mem_keys_eraseKey_of_ne nm n ?_ r.values hmem
                  intro heq
                  exact hcons d0 (List.mem_cons_self d0 ds) (heq ▸ hc)
              have := ih r1 r2 ds2 n hrest hmem1
                (fun d hd => hcons d (List.mem_cons_of_mem d0 hd))
              rw [← hwalk.1]; exact this

/-- C1: if the walk encounters a function, type, or value declaration with
no registered handler, or some registered handler is never invoked (its
entry is consumed by no declaration of the list), then the generation run
fails with an error and no output artifact is produced (`main` exits before
`Gen` runs). -/
theorem C1_drift_fails (k v : Expr) (nm pkg : String) (decls : List Decl)
    (h : (∃ d ∈ decls, unrecognizedBy (registries k v) d)
       ∨ (∃ n ∈ (registries k v).funcs.map Prod.fst, ∀ d ∈ decls, ¬ consumesFunc n d)
       ∨ (∃ n ∈ (registries k v).types.map Prod.fst, ∀ d ∈ decls, ¬ consumesType n d)
       ∨ (∃ n ∈ (registries k v).values.map Prod.fst, ∀ d ∈ decls, ¬ consumesValue n d)) :
    ∃ e, mutateDecls k v nm pkg decls = .error e
       ∧ runDecls (some (.mapType k v)) nm pkg decls = .error e := by
  have hrun : runDecls (some (.mapType k v)) nm pkg decls = mutateDecls k v nm pkg decls := rfl
  rcases h with h | h | h | h
  · obtain ⟨e, he⟩ := walkAll_err_of_unrecognized decls (registries k v) h
    exact ⟨e, by simp [mutateDecls, he], by simp [hrun, mutateDecls, he]⟩
  · obtain ⟨n, hmem, hcons⟩ := h
    cases hwalk : walkAll (registries k v) decls with
    | error e => exact ⟨e, by simp [mutateDecls, hwalk], by simp [hrun, mutateDecls, hwalk]⟩
    | ok rds =>
        obtain ⟨r', ds'⟩ := rds
        have hk := walkAll_keeps_funcs decls (registries k v) r' ds' n hwalk hmem hcons
        have hlen := ne_nil_of_mem_keys n r'.funcs hk
        exact ⟨.drift "function was deleted", by simp [mutateDecls, hwalk, hlen],
          by simp [hrun, mutateDecls, hwalk, hlen]⟩
  · obtain ⟨n, hmem, hcons⟩ := h
    cases hwalk : walkAll (registries k v) decls with
    | error e => exact ⟨e, by simp [mutateDecls, hwalk], by simp [hrun, mutateDecls, hwalk]⟩
    | ok rds =>
        obtain ⟨r', ds'⟩ := rds
        have hk := walkAll_keeps_types decls (registries k v) r' ds' n hwalk hmem hcons
        have hlen := ne_nil_of_mem_keys n r'.types hk
        by_cases hf : r'.funcs.length = 0
        · exact ⟨.drift "type was deleted", by simp [mutateDecls, hwalk, hf, hlen],
            by simp [hrun, mutateDecls, hwalk, hf, hlen]⟩
        · exact ⟨.drift "function was deleted", by simp [mutateDecls, hwalk, hf],
            by simp [hrun, mutateDecls, hwalk, hf]⟩
  · obtain ⟨n, hmem, hcons⟩ := h
    cases hwalk : walkAll (registries k v) decls with
    | error e => exact ⟨e, by simp [mutateDecls, hwalk], by simp [hrun, mutateDecls, hwalk]⟩
    | ok rds =>
        obtain ⟨r', ds'⟩ := rds
        have hk := walkAll_keeps_values decls (registries k v) r' ds' n hwalk hmem hcons
        have hlen := ne_nil_of_mem_keys n r'.values hk
        by_cases hf : r'.funcs.length = 0
        · by_cases ht : r'.types.length = 0
          · exact ⟨.drift "value was deleted", by simp [mutateDecls, hwalk, hf, ht, hlen],
              by simp [hrun, mutateDecls, hwalk, hf, ht, hlen]⟩
          · exact ⟨.drift "type was deleted", by simp [mutateDecls, hwalk, hf, ht],
              by simp [hrun, mutateDecls, hwalk, hf, ht]⟩
        · exact ⟨.drift "function was deleted", by simp [mutateDecls, hwalk, hf],
            by simp [hrun, mutateDecls, hwalk, hf]⟩

/-- C1 witness: a template consisting only of an unrecognized function
declaration makes the run fail with an error and produce no output. -/
theorem C1_drift_fails_witness :
    ∃ e, mutateDecls (.ident "string") (.ident "int") "Map" "main"
          [.funcDecl none none "Nope" [] none []] = .error e
       ∧ runDecls (some (.mapType (.ident "string") (.ident "int"))) "Map" "main"
          [.funcDecl none none "Nope" [] none []] = .error e :=
  C1_drift_fails (.ident "string") (.ident "int") "Map" "main"
    [.funcDecl none none "Nope" [] none []]
    (Or.inl ⟨.funcDecl none none "Nope" [] none [], by simp,
      by simp [unrecognizedBy, registries, funcsRegistry]⟩)

/-! ## Claim C7 -/

theorem sdata_append (a b : String) : (a ++ b).data = a.data ++ b.data := by
  cases a; cases b; rfl

theorem entryAppendFacts (t : String) :
    ("entry" ++ t ≠ "Map") ∧ (("entry" ++ t = "entry") ↔ t = "")
    ∧ ("entry" ++ t ≠ "readOnly") ∧ ("entry" ++ t ≠ "expunged")
    ∧ ("entry" ++ t ≠ "newEntry") := by
  obtain ⟨td⟩ := t
  refine ⟨?_, ⟨?_, ?_⟩, ?_, ?_, ?_⟩
  · intro h; have hd := congrArg String.data h; rw [sdata_append] at hd; simp at hd
  · intro h; have hd := congrArg String.data h; rw [sdata_append] at hd; simp at hd
    subst hd; rfl
  · intro h; rw [h]; simp
  · intro h; have hd := congrArg String.data h; rw [sdata_append] at hd; simp at hd
  · intro h; have hd := congrArg String.data h; rw [sdata_append] at hd; simp at hd
  · intro h; have hd := congrArg String.data h; rw [sdata_append] at hd; simp at hd

theorem readOnlyAppendFacts (t : String) :
    ("readOnly" ++ t ≠ "Map") ∧ ("readOnly" ++ t ≠ "entry")
    ∧ (("readOnly" ++ t = "readOnly") ↔ t = "") ∧ ("readOnly" ++ t ≠ "expunged")
    ∧ ("readOnly" ++ t ≠ "newEntry") := by
  obtain ⟨td⟩ := t
  refine ⟨?_, ?_, ⟨?_, ?_⟩, ?_, ?_⟩
  · intro h; have hd := congrArg String.data h; rw [sdata_append] at hd; simp at hd
  · intro h; have hd := congrArg String.data h; rw [sdata_append] at hd; simp at hd
  · intro h; have hd := congrArg String.data h; rw [sdata_append] at hd; simp at hd
    subst hd; rfl
  · intro h; rw [h]; simp
  · intro h; have hd := congrArg String.data h; rw [sdata_append] at hd; simp at hd
  · intro h; have hd := congrArg String.data h; rw [sdata_append] at hd; simp at hd

theorem expungedAppendFacts (t : String) :
    ("expunged" ++ t ≠ "Map") ∧ ("expunged" ++ t ≠ "entry")
    ∧ ("expunged" ++ t ≠ "readOnly") ∧ (("expunged" ++ t = "expunged") ↔ t = "")
    ∧ ("expunged" ++ t ≠ "newEntry") := by
  obtain ⟨td⟩ := t
  refine ⟨?_, ?_, ?_, ⟨?_, ?_⟩, ?_⟩
  · intro h; have hd := congrArg String.data h; rw [sdata_append] at hd; simp at hd
  · intro h; have hd := congrArg String.data h; rw [sdata_append] at hd; simp at hd
  · intro h; have hd := congrArg String.data h; rw [sdata_append] at hd; simp at hd
  · intro h; have hd := congrArg String.data h; rw [sdata_append] at hd; simp at hd
    subst hd; rfl
  · intro h; rw [h]; simp
  · intro h; have hd := congrArg String.data h; rw [sdata_append] at hd; simp at hd

theorem newEntryAppendFacts (t : String) :
    ("newEntry" ++ t ≠ "Map") ∧ ("newEntry" ++ t ≠ "entry")
    ∧ ("newEntry" ++ t ≠ "readOnly") ∧ ("newEntry" ++ t ≠ "expunged")
    ∧ (("newEntry" ++ t = "newEntry") ↔ t = "") := by
  obtain ⟨td⟩ := t
  refine ⟨?_, ?_, ?_, ?_, ⟨?_, ?_⟩⟩
  · intro h; have hd := congrArg String.data h; rw [sdata_append] at hd; simp at hd
  · intro h; have hd := congrArg String.data h; rw [sdata_append] at hd; simp at hd
  · intro h; have hd := congrArg String.data h; rw [sdata_append] at hd; simp at hd
  · intro h; have hd := congrArg String.data h; rw [sdata_append] at hd; simp at hd
  · intro h; have hd := congrArg String.data h; rw [sdata_append] at hd; simp at hd
    subst hd; rfl
  · intro h; rw [h]; simp

/-- For an output name that is not itself one of the four private helper
identifiers, applying the rename table to a name twice gives the same
result as applying it once. -/
theorem tableApply_idem (nm : String) (h1 : nm ≠ "entry") (h2 : nm ≠ "readOnly")
    (h3 : nm ≠ "expunged") (h4 : nm ≠ "newEntry") (x : String) :
    tableApply nm (tableApply nm x) = tableApply nm x := by
  have fixnm : tableApply nm nm = nm := by
    by_cases hm : nm = "Map"
    · rw [hm]; simp [tableApply]
    · simp [tableApply, hm, h1, h2, h3, h4]
  have fixentry : tableApply nm ("entry" ++ goTitle nm) = "entry" ++ goTitle nm := by
    obtain ⟨f1, f2, f3, f4, f5⟩ := entryAppendFacts (goTitle nm)
    by_cases ht : goTitle nm = ""
    · simp only [ht]
      have e : "entry" ++ "" = "entry" := by simp
      rw [e]
      simp [tableApply, ht]
    · have c2 : "entry" ++ goTitle nm ≠ "entry" := fun hh => ht (f2.mp hh)
      simp [tableApply, f1, c2, f3, f4, f5]
  have fixreadOnly : tableApply nm ("readOnly" ++ goTitle nm) = "readOnly" ++ goTitle nm := by
    obtain ⟨f1, f2, f3, f4, f5⟩ := readOnlyAppendFacts (goTitle nm)
    by_cases ht : goTitle nm = ""
    · simp only [ht]
      have e : "readOnly" ++ "" = "readOnly" := by simp
      rw [e]
      simp [tableApply, ht]
    · have c3 : "readOnly" ++ goTitle nm ≠ "readOnly" := fun hh => ht (f3.mp hh)
      simp [tableApply, f1, f2, c3, f4, f5]
  have fixexpunged : tableApply nm ("expunged" ++ goTitle nm) = "expunged" ++ goTitle nm := by
    obtain ⟨f1, f2, f3, f4, f5⟩ := expungedAppendFacts (goTitle nm)
    by_cases ht : goTitle nm = ""
    · simp only [ht]
      have e : "expunged" ++ "" = "expunged" := by simp
      rw [e]
      simp [tableApply, ht]
    · have c4 : "expunged" ++ goTitle nm ≠ "expunged" := fun hh => ht (f4.mp hh)
      simp [tableApply, f1, f2, f3, c4, f5]
  have fixnewEntry : tableApply nm ("newEntry" ++ goTitle nm) = "newEntry" ++ goTitle nm := by
    obtain ⟨f1, f2, f3, f4, f5⟩ := newEntryAppendFacts (goTitle nm)
    by_cases ht : goTitle nm = ""
    · simp only [ht]
      have e : "newEntry" ++ "" = "newEntry" := by simp
      rw [e]
      simp [tableApply, ht]
    · have c5 : "newEntry" ++ goTitle nm ≠ "newEntry" := fun hh => ht (f5.mp hh)
      simp [tableApply, f1, f2, f3, f4, c5]
  by_cases hx1 : x = "Map"
  · rw [hx1]
    have e : tableApply nm "Map" = nm := by simp [tableApply]
    rw [e]; exact fixnm
  by_cases hx2 : x = "entry"
  · rw [hx2]
    have e : tableApply nm "entry" = "entry" ++ goTitle nm := by simp [tableApply]
    rw [e]; exact fixentry
  by_cases hx3 : x = "readOnly"
  · rw [hx3]
    have e : tableApply nm "readOnly" = "readOnly" ++ goTitle nm := by simp [tableApply]
    rw [e]; exact fixreadOnly
  by_cases hx4 : x = "expunged"
  · rw [hx4]
    have e : tableApply nm "expunged" = "expunged" ++ goTitle nm := by simp [tableApply]
    rw [e]; exact fixexpunged
  by_cases hx5 : x = "newEntry"
  · rw [hx5]
    have e : tableApply nm "newEntry" = "newEntry" ++ goTitle nm := by simp [tableApply]
    rw [e]; exact fixnewEntry
  · have e : tableApply nm x = x := by simp [tableApply, hx1, hx2, hx3, hx4, hx5]
    rw [e]; exact e

theorem optionMapName_idem (f : String → String) (h : ∀ x, f (f x) = f x)
    (o : Option String) : Option.map f (Option.map f o) = Option.map f o := by
  cases o <;> simp [h]

mutual

theorem mapNames_idemE (f : String → String) (h : ∀ x, f (f x) = f x) :
    ∀ e, mapNamesE f (mapNamesE f e) = mapNamesE f e
  | .ident n => by simp [mapNamesE, h n]
  | .iface => rfl
  | .mapType a b => by
      simp [mapNamesE, mapNames_idemE f h a, mapNames_idemE f h b]
  | .arrayType e => by simp [mapNamesE, mapNames_idemE f h e]
  | .starExpr e => by simp [mapNamesE, mapNames_idemE f h e]
  | .selector x s => by simp [mapNamesE, mapNames_idemE f h x, h s]
  | .funcType ps rs => by
      simp [mapNamesE, mapNames_idemFL f h ps, mapNames_idemOFL f h rs]
  | .structType fs => by simp [mapNamesE, mapNames_idemFL f h fs]
  | .call fn args => by
      simp [mapNamesE, mapNames_idemE f h fn, mapNames_idemL f h args]
  | .compositeLit t es => by
      simp [mapNamesE, mapNames_idemO f h t, mapNames_idemL f h es]
  | .indexExpr x i => by
      simp [mapNamesE, mapNames_idemE f h x, mapNames_idemE f h i]
  | .lit t => rfl
  | .binary op a b => by
      simp [mapNamesE, mapNames_idemE f h a, mapNames_idemE f h b]
  | .unary op x => by simp [mapNamesE, mapNames_idemE f h x]

theorem mapNames_idemL (f : String → String) (h : ∀ x, f (f x) = f x) :
    ∀ es, mapNamesL f (mapNamesL f es) = mapNamesL f es
  | [] => rfl
  | e :: es => by simp [mapNamesL, mapNames_idemE f h e, mapNames_idemL f h es]

theorem mapNames_idemO (f : String → String) (h : ∀ x, f (f x) = f x) :
    ∀ oe, mapNamesO f (mapNamesO f oe) = mapNamesO f oe
  | none => rfl
  | some e => by simp [mapNamesO, mapNames_idemE f h e]

theorem mapNames_idemFL (f : String → String) (h : ∀ x, f (f x) = f x) :
    ∀ fl, mapNamesFL f (mapNamesFL f fl) = mapNamesFL f fl
  | [] => rfl
  | (ns, t) :: fs => by
      simp [mapNamesFL, mapNames_idemE f h t, mapNames_idemFL f h fs,
        List.map_map, Function.comp, h]

theorem mapNames_idemOFL (f : String → String) (h : ∀ x, f (f x) = f x) :
    ∀ ofl, mapNamesOFL f (mapNamesOFL f ofl) = mapNamesOFL f ofl
  | none => rfl
  | some fl => by simp [mapNamesOFL, mapNames_idemFL f h fl]

end

mutual

theorem mapNames_idemS (f : String → String) (h : ∀ x, f (f x) = f x) :
    ∀ st, mapNamesS f (mapNamesS f st) = mapNamesS f st
  | .exprStmt e => by simp [mapNamesS, mapNames_idemE f h e]
  | .assign l r tok => by
      simp [mapNamesS, mapNames_idemL f h l, mapNames_idemL f h r]
  | .ret es => by simp [mapNamesS, mapNames_idemL f h es]
  | .ifStmt c tb eb => by
      simp [mapNamesS, mapNames_idemE f h c, mapNames_idemSL f h tb,
        mapNames_idemSL f h eb]
  | .forRange kn vn x b => by
      simp [mapNamesS, mapNames_idemE f h x, mapNames_idemSL f h b,
        optionMapName_idem f h kn, optionMapName_idem f h vn]
  | .deferStmt e => by simp [mapNamesS, mapNames_idemE f h e]
  | .incDec x op => by simp [mapNamesS, mapNames_idemE f h x]
  | .breakStmt => rfl
  | .block b => by simp [mapNamesS, mapNames_idemSL f h b]

theorem mapNames_idemSL (f : String → String) (h : ∀ x, f (f x) = f x) :
    ∀ sts, mapNamesSL f (mapNamesSL f sts) = mapNamesSL f sts
  | [] => rfl
  | st :: sts => by
      simp [mapNamesSL, mapNames_idemS f h st, mapNames_idemSL f h sts]

end

theorem mapNames_idemSpec (f : String → String) (h : ∀ x, f (f x) = f x) (s : Spec) :
    mapNamesSpec f (mapNamesSpec f s) = mapNamesSpec f s := by
  cases s with
  | importSpec p => rfl
  | typeSpec nm ty => simp [mapNamesSpec, h nm, mapNames_idemE f h ty]
  | valueSpec ns ty vs =>
      simp [mapNamesSpec, mapNames_idemO f h ty, mapNames_idemL f h vs,
        List.map_map, Function.comp, h]

theorem mapNames_idemDecl (f : String → String) (h : ∀ x, f (f x) = f x) (d : Decl) :
    mapNamesDecl f (mapNamesDecl f d) = mapNamesDecl f d := by
  cases d with
  | funcDecl rn rt nm ps rs body =>
      simp [mapNamesDecl, mapNames_idemO f h rt, mapNames_idemFL f h ps,
        mapNames_idemOFL f h rs, mapNames_idemSL f h body,
        optionMapName_idem f h rn, h]
  | genDecl specs =>
      simp [mapNamesDecl, List.map_map, Function.comp, mapNames_idemSpec f h]
  | badDecl => rfl

theorem mapNames_idemFile (f : String → String) (h : ∀ x, f (f x) = f x) (fl : File) :
    mapNamesFile f (mapNamesFile f fl) = mapNamesFile f fl := by
  cases fl with
  | mk nm ds =>
      simp [mapNamesFile, h nm, List.map_map, Function.comp, mapNames_idemDecl f h]

/-- The name of the first type spec of the first declaration, used to
observe the effect of the rename pass. -/
def firstTypeName (f : File) : String :=
  match f.decls with
  | .genDecl (.typeSpec n _ :: _) :: _ => n
  | _ => ""

/-- A one-declaration file containing an identifier the rename table maps:
the container type name. -/
def renameProbeFile : File :=
  ⟨"p", [.genDecl [.typeSpec "Map" (.structType [])]]⟩

/-- C7 counterexample: with the caller-supplied output name `entry` — one of
the private helper identifiers — applying the rename pass twice to a tree
containing the identifier `Map` yields `entryEntry` where one application
yields `entry`: renaming *is* re-triggered by its own output, so the claim
as stated (idempotent for every caller-supplied output name) is false. -/
theorem C7_counterexample :
    mapNamesFile (tableApply "entry") (mapNamesFile (tableApply "entry") renameProbeFile)
      ≠ mapNamesFile (tableApply "entry") renameProbeFile := by
  intro h
  have h2 := congrArg firstTypeName h
  have e1 : firstTypeName
      (mapNamesFile (tableApply "entry")
        (mapNamesFile (tableApply "entry") renameProbeFile)) = "entryEntry" := rfl
  have e2 : firstTypeName
      (mapNamesFile (tableApply "entry") renameProbeFile) = "entry" := rfl
  rw [e1, e2] at h2
  exact absurd h2 (by decide)

/-- C7 (amended): for every caller-supplied output name that is not itself
one of the four private helper identifiers (`entry`, `readOnly`,
`expunged`, `newEntry`), applying the global rename-table pass twice to any
declaration tree yields the same tree as applying it once. -/
theorem C7_amended (nm : String) (h1 : nm ≠ "entry") (h2 : nm ≠ "readOnly")
    (h3 : nm ≠ "expunged") (h4 : nm ≠ "newEntry") (fl : File) :
    mapNamesFile (tableApply nm) (mapNamesFile (tableApply nm) fl)
      = mapNamesFile (tableApply nm) fl :=
  mapNames_idemFile (tableApply nm) (tableApply_idem nm h1 h2 h3 h4) fl

/-- C7 witness: the rename pass for the output name `Counter` is idempotent
on a tree containing the identifier `Map`. -/
theorem C7_amended_witness :
    mapNamesFile (tableApply "Counter")
        (mapNamesFile (tableApply "Counter") renameProbeFile)
      = mapNamesFile (tableApply "Counter") renameProbeFile :=
  C7_amended "Counter" (by decide) (by decide) (by decide) (by decide) renameProbeFile

/-! ## Claim C10 -/

/-- C10: a grouped general declaration is inspected only at its first spec:
when the first spec is neither a type spec nor a value spec (as for the
template's import declaration), the walk accepts it silently — no handler
lookup, no registry change, no drift failure — and the specs after the
first (here an arbitrary tail, including unregistered type specs) are never
examined. -/
theorem C10_first_spec_only (r : Registries) (p : String) (rest : List Spec) :
    step r (.genDecl (.importSpec p :: rest))
      = .ok (r, .genDecl (.importSpec p :: rest)) := by
  rfl

end Rwmap
